import Mathlib

/-!
# Ad-service test harness (`main.go`): shallow embedding and verified properties

The harness is a command-line program whose probes talk to an HTTP service and to a
ClickHouse store.  Each probe is embedded as a pure function from the answers of
the outside world to the ordered trace of effects the probe performs (lines
printed, HTTP requests issued, sleeps) together with the way it terminates.

Conventions of the embedding:

* `float64` fields hold the exact rational value of the decimal literal of the
  source.  Every comparison made below is between decimal literals, and rounding
  to `float64` is monotone, so the comparisons agree.
* `uint64` values are naturals below `2 ^ 64`; subtraction wraps modulo `2 ^ 64`.
  `int` is the 64-bit signed integer of the platforms the harness is built for.
* Library functions (`strconv.ParseFloat`, `json.Marshal`, the JSON decoder,
  `url.Values.Encode`) are parameters, gathered in `StdLib`.
-/

namespace AdHarness

/-! ## API models -/

/-- Request body for creating a line item (`LineItemCreate`). -/
structure LineItemCreate where
  Name : String
  AdvertiserID : String
  Bid : ℚ
  Budget : ℚ
  Placement : String
  Categories : List String
  Keywords : List String
deriving DecidableEq

/-- Response body for a line item; the two timestamps are kept as their wire text. -/
structure LineItem where
  toLineItemCreate : LineItemCreate
  ID : String
  CreatedAt : String
  UpdatedAt : String
  Status : String
deriving DecidableEq

/-- Placement of a line item, promoted from the embedded `LineItemCreate`. -/
def LineItem.Placement (item : LineItem) : String := item.toLineItemCreate.Placement

/-- Element of the response of the ads endpoint. -/
structure Ad where
  ID : String
  Name : String
  AdvertiserID : String
  Bid : ℚ
  Placement : String
  ServeURL : String
  Relevance : ℚ
deriving DecidableEq

/-- Request body of the tracking endpoint; the metadata map is an association list. -/
structure TrackingEvent where
  EventType : String
  LineItemID : String
  Timestamp : String
  Placement : String
  UserID : String
  Metadata : List (String × String)
deriving DecidableEq

/-! ## The outside world -/

/-- An HTTP response: status code and body text. -/
structure Response where
  StatusCode : Nat
  Body : String
deriving DecidableEq

/-- The pair `(resp, err)` returned by `http.Get` and `http.Post`: either `err` is nil
and a response is present, or `err` is not nil (the response is then normally nil). -/
inductive HttpResult where
  | ok (resp : Response)
  | error (err : String) (resp : Option Response)
deriving DecidableEq

/-- `url.Values`: keys with their values, in order of first insertion. -/
abbrev Values := List (String × List String)

/-- `Values.Add`: append the value to the values already stored under the key. -/
def Values.add : Values → String → String → Values
  | [], key, value => [(key, [value])]
  | (k, vs) :: rest, key, value =>
    if k = key then (k, vs ++ [value]) :: rest else (k, vs) :: Values.add rest key value

/-- The values stored under a key (`v[key]`), empty when the key is absent. -/
def Values.get : Values → String → List String
  | [], _ => []
  | (k, vs) :: rest, key => if k = key then vs else Values.get rest key

/-- Library functions the probes call. -/
structure StdLib where
  /-- `strconv.ParseFloat(s, 64)`: the value, or the error. -/
  parseFloat : String → Except String ℚ
  /-- `json.Marshal` of a `LineItemCreate`. -/
  marshalLineItem : LineItemCreate → String
  /-- `json.Marshal` of a `TrackingEvent`. -/
  marshalEvent : TrackingEvent → String
  /-- `url.Values.Encode`. -/
  encode : Values → String
  /-- `json.NewDecoder(body).Decode` into `[]Ad`. -/
  decodeAds : String → Except String (List Ad)
  /-- `json.NewDecoder(body).Decode` into `[]LineItem`. -/
  decodeLineItems : String → Except String (List LineItem)

/-! ## Output lines and effects -/

/-- One value per print statement of the source, with the arguments it formats. -/
inductive Line where
  /-- A `fmt.Println` of a constant text. -/
  | text (s : String)
  | unknownCommand (command : String)
  | createError (err : String)
  | copyBody (body : String)
  | adTestHeader (n total : Nat) (name : String)
  | usingTargeting (placement category keyword : String)
  | prediction (name : String)
  | curlGet (reqURL : String)
  | apiCallFailed (err : String)
  | decodeFailed (err : String)
  | adPass (name : String) (count : Nat)
  | adFailNoAds (name : String)
  | adFailNotFound (name : String)
  | adSummary (passedCount totalTests : Nat)
  | testName (name : String)
  | statusPass (expectedStatus : Nat)
  | statusFail (expectedStatus statusCode : Nat) (body : String)
  | validationSummary (passedCount totalTests : Nat)
  | connectInitialFailed (err : String)
  | queryInitialFailed (err : String)
  | initialCount (n : Nat)
  | curlRequest (n : Nat)
  | curlPost (json : String)
  | sentEvents (sentCount : Nat)
  | connectFinalFailed (err : String)
  | queryFinalFailed (err : String)
  | finalCount (n : Nat)
  | e2ePass (sentCount initialCount finalCount : Nat)
  | e2eFail (sentCount ingestedCount initialCount finalCount : Nat)
deriving DecidableEq

/-- The text each line writes to standard output. -/
def Line.render : Line → String
  | .text s => s ++ "\n"
  | .unknownCommand c => "Unknown command: " ++ c ++ "\n"
  | .createError err => "Error: " ++ err ++ "\n"
  | .copyBody body => body
  | .adTestHeader n total name =>
    "\n--- [Test " ++ toString n ++ "/" ++ toString total ++ "] Testing for: '" ++ name ++ "' ---\n"
  | .usingTargeting p c k =>
    "  - Using its own targeting: placement='" ++ p ++ "', category='" ++ c ++ "', keyword='" ++ k ++ "'\n"
  | .prediction name =>
    "  - Prediction: The API should return '" ++ name ++ "' in the list of ads.\n"
  | .curlGet reqURL => "  - CURL Command: curl -X GET '" ++ reqURL ++ "'\n"
  | .apiCallFailed err => "  [RESULT] ❌ FAIL: API call failed: " ++ err ++ "\n"
  | .decodeFailed err => "  [RESULT] ❌ FAIL: Could not decode API response: " ++ err ++ "\n"
  | .adPass name count =>
    "  [RESULT] ✅ PASS: Predicted ad '" ++ name ++ "' was found in the returned list of "
      ++ toString count ++ " ads.\n"
  | .adFailNoAds name =>
    "  [RESULT] ❌ FAIL: Predicted '" ++ name ++ "', but API returned no ads.\n"
  | .adFailNotFound name =>
    "  [RESULT] ❌ FAIL: Predicted ad '" ++ name ++ "' was NOT found in the returned list.\n"
  | .adSummary p t =>
    "\n--- Test Summary: " ++ toString p ++ "/" ++ toString t ++ " tests passed. ---\n"
  | .testName name => "\n[TEST] " ++ name ++ "\n"
  | .statusPass e => "  [RESULT] ✅ PASS: Received expected status " ++ toString e ++ "\n"
  | .statusFail e s body =>
    "  [RESULT] ❌ FAIL: Expected status " ++ toString e ++ ", but got " ++ toString s
      ++ ". Body: " ++ body ++ "\n"
  | .validationSummary p t =>
    "\n--- Validation Test Summary: " ++ toString p ++ "/" ++ toString t ++ " tests passed. ---\n"
  | .connectInitialFailed err =>
    "  [FAIL] Could not connect to ClickHouse to get initial count: " ++ err ++ "\n"
  | .queryInitialFailed err =>
    "  [FAIL] Failed to query ClickHouse for initial count: " ++ err ++ "\n"
  | .initialCount n => "  - Initial row count in ads_final is: " ++ toString n ++ "\n"
  | .curlRequest n => "\n--- Curl Request #" ++ toString n ++ " ---\n"
  | .curlPost json =>
    "curl -X POST 'http://localhost:8080/api/v1/tracking' -H 'Content-Type: application/json' -d '"
      ++ json ++ "'\n"
  | .sentEvents n => "\n  - Successfully sent " ++ toString n ++ " tracking events.\n"
  | .connectFinalFailed err =>
    "  [FAIL] Could not connect to ClickHouse to get final count: " ++ err ++ "\n"
  | .queryFinalFailed err =>
    "  [FAIL] Failed to query ClickHouse for final count: " ++ err ++ "\n"
  | .finalCount n => "  - Final row count in ads_final is: " ++ toString n ++ "\n"
  | .e2ePass s i f =>
    "  ✅ PASS: Sent " ++ toString s ++ " events. Row count correctly increased from "
      ++ toString i ++ " to " ++ toString f ++ ".\n"
  | .e2eFail s g i f =>
    "  ❌ FAIL: Mismatch! Sent " ++ toString s ++ " events, but row count only increased by "
      ++ toString g ++ " (from " ++ toString i ++ " to " ++ toString f ++ ").\n"

/-- What a probe does to the outside world, in order. -/
inductive Effect where
  | print (line : Line)
  | post (url contentType body : String)
  | get (url : String)
  | sleep (milliseconds : Nat)
deriving DecidableEq

/-- How a probe stops: it returns, it crashes with a run-time panic, or the
iteration budget of the embedding ran out (the budgets the probes pass to their loops
are shown below to suffice). -/
inductive Exit where
  | returned
  | panicked (reason : String)
  | outOfFuel
deriving DecidableEq

/-- A finished run of a probe. -/
structure Run where
  trace : List Effect
  exit : Exit
deriving DecidableEq

/-- The URLs of the GET requests of a trace, in order. -/
def gets : List Effect → List String
  | [] => []
  | .get url :: rest => url :: gets rest
  | _ :: rest => gets rest

/-- The POST requests of a trace as (url, body), in order. -/
def posts : List Effect → List (String × String)
  | [] => []
  | .post url _ body :: rest => (url, body) :: posts rest
  | _ :: rest => posts rest

/-- The lines printed by a trace, in order. -/
def printed : List Effect → List Line
  | [] => []
  | .print l :: rest => l :: printed rest
  | _ :: rest => printed rest

/-- The nine lines of `printUsage`. -/
def printUsage : List Effect :=
  [ .print (.text "\nUsage: go run main.go <command> [arguments...]"),
    .print (.text "\nCommands:"),
    .print (.text "  create <name> <adv_id> <bid> <budget> <placement>"),
    .print (.text "  get-ad <p> <c> <k>  Get winning ad for a placement"),
    .print (.text "  ad-test           Run targeted tests for populated line items"),
    .print (.text "  validation-test   Test the line item creation validation rules"),
    .print (.text "  e2e-tracking-test Run an end-to-end tracking pipeline test"),
    .print (.text "\nExample:"),
    .print (.text "  go run main.go ad-test") ]

/-! ## Fixture catalog -/

/-- The built-in catalog of twenty line items (`getKnownLineItems`). -/
def getKnownLineItems : List LineItemCreate :=
  [ ⟨"Summer Sale Banner", "adv123", 2.5, 3000.0, "homepage_top", ["electronics", "sports"], ["summer", "discount"]⟩,
    ⟨"Winter Clearance Promo", "adv456", 3.0, 7000.0, "video_preroll", ["fashion", "beauty"], ["clearance", "deal"]⟩,
    ⟨"Travel Deals Campaign", "adv789", 1.8, 5000.0, "article_inline_1", ["travel", "food"], ["exclusive", "trending"]⟩,
    ⟨"Gaming Weekend Blast", "adv321", 0.2, 8000.0, "homepage_top", ["gaming", "electronics"], ["sale", "new"]⟩,
    ⟨"Home Essentials Discount", "adv654", 2.2, 10000.0, "video_preroll", ["home", "sports"], ["deal", "discount"]⟩,
    ⟨"Back to School Deals", "adv111", 3.5, 4000.0, "article_inline_1", ["electronics", "fashion"], ["exclusive", "sale"]⟩,
    ⟨"Spring Fashion Promo", "adv222", 1.9, 9000.0, "homepage_top", ["fashion", "beauty"], ["trending", "new"]⟩,
    ⟨"Holiday Travel Specials", "adv333", 2.7, 6000.0, "video_preroll", ["travel", "food"], ["deal", "exclusive"]⟩,
    ⟨"Fitness Gear Discount", "adv444", 2.3, 3000.0, "article_inline_1", ["sports", "home"], ["discount", "sale"]⟩,
    ⟨"Luxury Beauty Sale", "adv555", 4.5, 7000.0, "homepage_top", ["beauty", "fashion"], ["clearance", "exclusive"]⟩,
    ⟨"Gadget Madness", "adv666", 3.1, 5000.0, "video_preroll", ["electronics", "gaming"], ["trending", "new"]⟩,
    ⟨"Healthy Living Promo", "adv777", 2.6, 8000.0, "article_inline_1", ["food", "home"], ["deal", "sale"]⟩,
    ⟨"Weekend Getaway Deals", "adv888", 1.7, 9000.0, "homepage_top", ["travel", "sports"], ["exclusive", "discount"]⟩,
    ⟨"Clearance Electronics", "adv999", 3.8, 1000.0, "video_preroll", ["electronics", "home"], ["clearance", "deal"]⟩,
    ⟨"Gaming Console Offer", "adv112", 4.0, 6000.0, "article_inline_1", ["gaming", "electronics"], ["new", "sale"]⟩,
    ⟨"Cozy Home Sale", "adv113", 2.4, 2000.0, "homepage_top", ["home", "fashion"], ["discount", "exclusive"]⟩,
    ⟨"Fashion Week Promo", "adv114", 2.9, 3000.0, "video_preroll", ["fashion", "beauty"], ["trending", "sale"]⟩,
    ⟨"Sports Gear Blowout", "adv115", 3.3, 5000.0, "article_inline_1", ["sports", "gaming"], ["deal", "clearance"]⟩,
    ⟨"Smart Home Specials", "adv116", 2.1, 7000.0, "homepage_top", ["electronics", "home"], ["exclusive", "new"]⟩,
    ⟨"Travel Light Promo", "adv117", 1.5, 4000.0, "video_preroll", ["travel", "fashion"], ["discount", "sale"]⟩ ]

/-- The constraints of the `validate` tags of `LineItemCreate`: name of 1 to 100
characters, advertiser id present, bid in [0.1, 10], budget in [1000, 10000],
placement one of the three allowed values. -/
def LineItemCreate.Valid (item : LineItemCreate) : Prop :=
  1 ≤ item.Name.length ∧ item.Name.length ≤ 100 ∧
  item.AdvertiserID ≠ "" ∧
  (0.1 : ℚ) ≤ item.Bid ∧ item.Bid ≤ 10 ∧
  (1000 : ℚ) ≤ item.Budget ∧ item.Budget ≤ 10000 ∧
  item.Placement ∈ ["homepage_top", "video_preroll", "article_inline_1"]

instance (item : LineItemCreate) : Decidable item.Valid := by
  unfold LineItemCreate.Valid; infer_instance

/-! ## Create probe -/

/-- The create probe (`runCreateLineItem`) on the argument vector `os.Args`
(`args[0]` the program, `args[1]` the command) and the answer of the POST. -/
def runCreateLineItem (L : StdLib) (args : List String) (http : HttpResult) : Run :=
  match args with
  | [_, _, a2, a3, a4, a5, a6] =>
    match L.parseFloat a4 with
    | .error _ => ⟨[.print (.text "Error: Invalid bid amount. Must be a number.")], .returned⟩
    | .ok bid =>
      match L.parseFloat a5 with
      | .error _ => ⟨[.print (.text "Error: Invalid budget amount. Must be a number.")], .returned⟩
      | .ok budget =>
        let newItem : LineItemCreate :=
          { Name := a2, AdvertiserID := a3, Bid := bid, Budget := budget, Placement := a6,
            Categories := [], Keywords := [] }
        let jsonData := L.marshalLineItem newItem
        let request := Effect.post "http://localhost:8080/api/v1/lineitems" "application/json" jsonData
        match http with
        | .error err _ => ⟨[request, .print (.createError err)], .returned⟩
        | .ok resp =>
          ⟨[request, .print (.text "Server Response:"), .print (.copyBody resp.Body),
            .print (.text "")], .returned⟩
  | _ =>
    ⟨.print (.text "Error: 'create' command requires 5 arguments.") :: printUsage, .returned⟩

/-! ## Targeted-match probe -/

/-- Body of one iteration of the loop of `runTargetedAdTests`, after the entry
`itemToTest` has been read: the effects of the iteration, whether the iteration
ends normally, and the new `passedCount`.  Reading element 0 of an empty slice is a
run-time panic. -/
def targetedCase (L : StdLib) (itemToTest : LineItemCreate) (http : HttpResult)
    (i totalTests passedCount : Nat) : Run × Nat :=
  let header := Effect.print (.adTestHeader (i + 1) totalTests itemToTest.Name)
  if itemToTest.Categories.length = 0 ∨ itemToTest.Keywords.length = 0 then
    (⟨[header, .print (.text "  [SKIP] Item has no categories or keywords to test with.")],
      .returned⟩, passedCount)
  else
    let testPlacement := itemToTest.Placement
    match itemToTest.Categories[0]?, itemToTest.Keywords[0]? with
    | some testCategory, some testKeyword =>
      let predictedWinnerName := itemToTest.Name
      let params : Values := []
      let params := params.add "placement" testPlacement
      let params := params.add "category" testCategory
      let params := params.add "keyword" testKeyword
      let params := params.add "limit" "4"
      let reqURL := "http://localhost:8080/api/v1/ads?" ++ L.encode params
      let before : List Effect :=
        [ header,
          .print (.usingTargeting testPlacement testCategory testKeyword),
          .print (.prediction predictedWinnerName),
          .print (.curlGet reqURL),
          .print (.text "  - ACTION: Calling the real API..."),
          .get reqURL ]
      match http with
      | .error err _ => (⟨before ++ [.print (.apiCallFailed err)], .returned⟩, passedCount)
      | .ok resp =>
        match L.decodeAds resp.Body with
        | .error err => (⟨before ++ [.print (.decodeFailed err)], .returned⟩, passedCount)
        | .ok actualAds =>
          let found := actualAds.any (fun ad => ad.Name = predictedWinnerName)
          if found then
            (⟨before ++ [.print (.adPass predictedWinnerName actualAds.length)], .returned⟩,
              passedCount + 1)
          else if actualAds.length = 0 then
            (⟨before ++ [.print (.adFailNoAds predictedWinnerName)], .returned⟩, passedCount)
          else
            (⟨before ++ [.print (.adFailNotFound predictedWinnerName)], .returned⟩, passedCount)
    | _, _ => (⟨[header], .panicked "index out of range"⟩, passedCount)

/-- The loop `for i := 0; i < totalTests; i++` of `runTargetedAdTests` from index `i`
on, with the GET of iteration `i` answered by `http i`.  Reading `allLineItems[i]`
out of range is a run-time panic. -/
def targetedLoop (L : StdLib) (allLineItems : List LineItemCreate) (http : Nat → HttpResult)
    (totalTests : Nat) : Nat → Nat → Nat → Run × Nat
  | 0, _, passedCount => (⟨[], .outOfFuel⟩, passedCount)
  | fuel + 1, i, passedCount =>
    if i < totalTests then
      match allLineItems[i]? with
      | none => (⟨[], .panicked "index out of range"⟩, passedCount)
      | some itemToTest =>
        let step := targetedCase L itemToTest (http i) i totalTests passedCount
        match step.1.exit with
        | .returned =>
          let rest := targetedLoop L allLineItems http totalTests fuel (i + 1) step.2
          (⟨step.1.trace ++ rest.1.trace, rest.1.exit⟩, rest.2)
        | _ => step
    else (⟨[], .returned⟩, passedCount)

/-- The targeted-match probe run on a given catalog. -/
def runTargetedAdTestsOn (L : StdLib) (allLineItems : List LineItemCreate)
    (http : Nat → HttpResult) : Run :=
  let totalTests := 5
  let passedCount := 0
  let loop := targetedLoop L allLineItems http totalTests (totalTests + 1) 0 passedCount
  match loop.1.exit with
  | .returned =>
    ⟨.print (.text "--- Running Simplified & Targeted Ad Logic Tests (First 5 Items) ---")
        :: loop.1.trace ++ [.print (.adSummary loop.2 totalTests)], .returned⟩
  | stopped =>
    ⟨.print (.text "--- Running Simplified & Targeted Ad Logic Tests (First 5 Items) ---")
        :: loop.1.trace, stopped⟩

/-- The targeted-match probe (`runTargetedAdTests`): it reads the built-in catalog. -/
def runTargetedAdTests (L : StdLib) (http : Nat → HttpResult) : Run :=
  runTargetedAdTestsOn L getKnownLineItems http

/-! ## Validation probe -/

/-- The closure `runTestCase` of `runValidationTests`: one POST of `payload`, answered
by `http`; returns the effects and the new value of the captured `passedCount`. -/
def runTestCase (L : StdLib) (http : HttpResult) (testName : String) (payload : LineItemCreate)
    (expectedStatus : Nat) (passedCount : Nat) : List Effect × Nat :=
  let jsonData := L.marshalLineItem payload
  let before : List Effect :=
    [ .print (.testName testName),
      .post "http://localhost:8080/api/v1/lineitems" "application/json" jsonData ]
  match http with
  | .error err _ => (before ++ [.print (.apiCallFailed err)], passedCount)
  | .ok resp =>
    if resp.StatusCode = expectedStatus then
      (before ++ [.print (.statusPass expectedStatus)], passedCount + 1)
    else
      (before ++ [.print (.statusFail expectedStatus resp.StatusCode resp.Body)], passedCount)

/-- Status code `http.StatusCreated`. -/
def StatusCreated : Nat := 201

/-- Status code `http.StatusBadRequest`. -/
def StatusBadRequest : Nat := 400

/-- Status code `http.StatusAccepted`. -/
def StatusAccepted : Nat := 202

/-- Status code `http.StatusOK`. -/
def StatusOK : Nat := 200

/-- The baseline payload `validItem` of `runValidationTests`. -/
def validItem : LineItemCreate :=
  { Name := "Valid Test Item", AdvertiserID := "adv-valid", Bid := 5.0, Budget := 5000.0,
    Placement := "homepage_top", Categories := [], Keywords := [] }

/-- `strings.Repeat(s, n)`. -/
def stringsRepeat (s : String) : Nat → String
  | 0 => ""
  | n + 1 => s ++ stringsRepeat s n

/-- The validation probe (`runValidationTests`); the `k`-th POST is answered by `http k`. -/
def runValidationTests (L : StdLib) (http : Nat → HttpResult) : Run :=
  let passedCount := 0
  let totalTests := 6
  let t0 : List Effect := [.print (.text "--- Running Line Item Creation Validation Tests ---")]
  let c1 := runTestCase L (http 0) "Creating a completely valid line item" validItem
    StatusCreated passedCount
  let longNameItem := { validItem with Name := stringsRepeat "a" 101 }
  let c2 := runTestCase L (http 1) "Name longer than 100 characters" longNameItem
    StatusBadRequest c1.2
  let lowBidItem := { validItem with Bid := 0.05 }
  let c3 := runTestCase L (http 2) "Bid less than 0.1" lowBidItem StatusBadRequest c2.2
  let highBudgetItem := { validItem with Budget := 10001 }
  let c4 := runTestCase L (http 3) "Budget greater than 10000" highBudgetItem
    StatusBadRequest c3.2
  let invalidPlacementItem := { validItem with Placement := "this_is_not_a_valid_placement" }
  let c5 := runTestCase L (http 4) "Placement not in the allowed list" invalidPlacementItem
    StatusBadRequest c4.2
  let missingNameItem := { validItem with Name := "" }
  let c6 := runTestCase L (http 5) "Missing required 'name' field" missingNameItem
    StatusBadRequest c5.2
  ⟨t0 ++ c1.1 ++ c2.1 ++ c3.1 ++ c4.1 ++ c5.1 ++ c6.1
      ++ [.print (.validationSummary c6.2 totalTests)], .returned⟩

/-! ## Pipeline probe -/

/-- Answers of the outside world to one run of the pipeline probe. -/
structure E2EWorld where
  /-- Error of the first `clickhouse.Open`, if any. -/
  openInitial : Option String
  /-- Outcome of the baseline `QueryRow(...).Scan(&initialCount)`. -/
  scanInitial : Except String Nat
  /-- Outcome of `GET /api/v1/lineitems`. -/
  getLineItems : HttpResult
  /-- Outcome of the tracking POST of iteration `sentCount`. -/
  postTracking : Nat → HttpResult
  /-- Error of the second `clickhouse.Open`, if any. -/
  openFinal : Option String
  /-- Outcome of the final `QueryRow(...).Scan(&finalCount)`. -/
  scanFinal : Except String Nat

/-- The `TrackingEvent` built in iteration `sentCount` of the injection loop. -/
def mkEvent (itemToTrack : LineItem) (sentCount : Nat) : TrackingEvent :=
  { EventType := "impression",
    LineItemID := itemToTrack.ID,
    Timestamp := "",
    Placement := itemToTrack.Placement,
    UserID := "e2e-user-" ++ toString (sentCount + 1),
    Metadata := [("browser", "safari"), ("device", "tablet")] }

/-- The guard `err == nil && resp.StatusCode == http.StatusAccepted` of the
injection loop. -/
def accepted : HttpResult → Bool
  | .ok resp => resp.StatusCode = StatusAccepted
  | .error _ _ => false

/-- The effects of iteration `sentCount` of the injection loop up to and including
its POST. -/
def injectionSend (L : StdLib) (itemToTrack : LineItem) (sentCount : Nat) : List Effect :=
  let event := mkEvent itemToTrack sentCount
  let jsonData := L.marshalEvent event
  [ .print (.curlRequest (sentCount + 1)),
    .print (.curlPost jsonData),
    .post "http://localhost:8080/api/v1/tracking" "application/json" jsonData ]

/-- The injection loop `for sentCount = 0; sentCount < numEventsToSend; sentCount++`
from the given `sentCount` on: the effects, how the loop stops, and `sentCount` at
that point.  When the guard `accepted` holds the source evaluates `err.Error()` on
the nil `err`, which is a run-time panic. -/
def injectionLoop (L : StdLib) (w : E2EWorld) (itemToTrack : LineItem) (numEventsToSend : Nat) :
    Nat → Nat → Run × Nat
  | 0, sentCount => (⟨[], .outOfFuel⟩, sentCount)
  | fuel + 1, sentCount =>
    if sentCount < numEventsToSend then
      let before := injectionSend L itemToTrack sentCount
      if accepted (w.postTracking sentCount) then
        (⟨before, .panicked "invalid memory address or nil pointer dereference"⟩, sentCount)
      else
        let rest := injectionLoop L w itemToTrack numEventsToSend fuel (sentCount + 1)
        (⟨before ++ [.sleep 50] ++ rest.1.trace, rest.1.exit⟩, rest.2)
    else (⟨[], .returned⟩, sentCount)

/-- Conversion `int(x)` of a `uint64` to the 64-bit signed `int`. -/
def toInt (x : Nat) : Int :=
  if x % 2 ^ 64 < 2 ^ 63 then (x % 2 ^ 64 : Nat) else (x % 2 ^ 64 : Nat) - 2 ^ 64

/-- Subtraction of `uint64` values. -/
def subUint64 (a b : Nat) : Nat := (a + 2 ^ 64 - b % 2 ^ 64) % 2 ^ 64

/-- The pipeline probe (`runE2ETrackingTest`). -/
def runE2ETrackingTest (L : StdLib) (w : E2EWorld) : Run :=
  let t1 : List Effect :=
    [ .print (.text "--- Running End-to-End Tracking Pipeline Test ---"),
      .print (.text "\n[PHASE 1] Getting initial row count from ClickHouse...") ]
  match w.openInitial with
  | some err => ⟨t1 ++ [.print (.connectInitialFailed err)], .returned⟩
  | none =>
  match w.scanInitial with
  | .error err => ⟨t1 ++ [.print (.queryInitialFailed err)], .returned⟩
  | .ok initialCount =>
  let t2 : List Effect := t1 ++
    [ .print (.initialCount initialCount),
      .print (.text "\n[PHASE 2] Sending tracking events to the API..."),
      .get "http://localhost:8080/api/v1/lineitems" ]
  let numEventsToSend := 15
  let fetchFailed : List Effect :=
    [.print (.text "  [FAIL] Could not fetch line items to start the test. Is the service populated?")]
  match w.getLineItems with
  | .error _ _ => ⟨t2 ++ fetchFailed, .returned⟩
  | .ok resp =>
  if resp.StatusCode ≠ StatusOK then ⟨t2 ++ fetchFailed, .returned⟩ else
  let noItems : List Effect :=
    [.print (.text "  [FAIL] Could not decode or find any line items.")]
  match L.decodeLineItems resp.Body with
  | .error _ => ⟨t2 ++ noItems, .returned⟩
  | .ok [] => ⟨t2 ++ noItems, .returned⟩
  | .ok (itemToTrack :: _) =>
  let loop := injectionLoop L w itemToTrack numEventsToSend (numEventsToSend + 1) 0
  match loop.1.exit with
  | .returned =>
    let sentCount := loop.2
    let t3 : List Effect := t2 ++ loop.1.trace ++
      [ .print (.sentEvents sentCount),
        .print (.text "\n[PHASE 3] Waiting 15 seconds for Kafka and ClickHouse to ingest the data..."),
        .sleep 20000,
        .print (.text "\n[PHASE 4] Querying ClickHouse for final row count...") ]
    match w.openFinal with
    | some err => ⟨t3 ++ [.print (.connectFinalFailed err)], .returned⟩
    | none =>
    match w.scanFinal with
    | .error err => ⟨t3 ++ [.print (.queryFinalFailed err)], .returned⟩
    | .ok finalCount =>
    let ingestedCount := subUint64 finalCount initialCount
    let t4 : List Effect := t3 ++ [.print (.finalCount finalCount), .print (.text "\n[RESULT]")]
    if (sentCount : Int) = toInt ingestedCount then
      ⟨t4 ++ [.print (.e2ePass sentCount initialCount finalCount),
              .print (.text "\n--- Test Complete ---")], .returned⟩
    else
      ⟨t4 ++ [.print (.e2eFail sentCount ingestedCount initialCount finalCount),
              .print (.text "\n--- Test Complete ---")], .returned⟩
  | stopped => ⟨t2 ++ loop.1.trace, stopped⟩

/-- The line is the PASS verdict of the pipeline probe. -/
def Line.isPass : Line → Bool
  | .e2ePass _ _ _ => true
  | _ => false

/-- The line is the FAIL verdict of the pipeline probe. -/
def Line.isFail : Line → Bool
  | .e2eFail _ _ _ _ => true
  | _ => false

/-- The run prints the PASS verdict of the pipeline probe. -/
def Run.reportsPass (r : Run) : Bool := (printed r.trace).any Line.isPass

/-- The run prints the FAIL verdict of the pipeline probe. -/
def Run.reportsFail (r : Run) : Bool := (printed r.trace).any Line.isFail

/-! ## The validation matrix as the specification tabulates it -/

/-- A creation POST counts as passed when a response was received and its status is
the expected one. -/
def casePassed (http : HttpResult) (expectedStatus : Nat) : Bool :=
  match http with
  | .ok resp => resp.StatusCode = expectedStatus
  | .error _ _ => false

/-- The verdict line of one validation case, by the outcome of its POST. -/
def specVerdictLine (http : HttpResult) (expectedStatus : Nat) : Line :=
  match http with
  | .error err _ => .apiCallFailed err
  | .ok resp =>
    if resp.StatusCode = expectedStatus then .statusPass expectedStatus
    else .statusFail expectedStatus resp.StatusCode resp.Body

/-- The baseline of the specification: name `Valid Test Item`, advertiser-id
`adv-valid`, bid 5.0, budget 5000.0, placement `homepage_top`, no categories, no
keywords. -/
def specBaseline : LineItemCreate :=
  ⟨"Valid Test Item", "adv-valid", 5, 5000, "homepage_top", [], []⟩

/-- The six rows of the test matrix of the specification, in order, each with the
case name the source prints: the mutation applied to the baseline and the expected
status. -/
def specValidationMatrix : List (String × LineItemCreate × Nat) :=
  [ ("Creating a completely valid line item", specBaseline, 201),
    ("Name longer than 100 characters",
      { specBaseline with Name := String.mk (List.replicate 101 'a') }, 400),
    ("Bid less than 0.1", { specBaseline with Bid := 0.05 }, 400),
    ("Budget greater than 10000", { specBaseline with Budget := 10001 }, 400),
    ("Placement not in the allowed list",
      { specBaseline with Placement := "this_is_not_a_valid_placement" }, 400),
    ("Missing required 'name' field", { specBaseline with Name := "" }, 400) ]

/-- The expected status of case `k` (counted from 0): 201 for the first case, 400 for
the others. -/
def specExpectedStatus (k : Nat) : Nat := if k = 0 then 201 else 400

/-- The effects of a table-driven run of the validation matrix from case `k` on: per
row one line with the case name, one POST of the payload, one verdict line. -/
def specMatrixTrace (L : StdLib) (http : Nat → HttpResult) :
    Nat → List (String × LineItemCreate × Nat) → List Effect
  | _, [] => []
  | k, (name, payload, expected) :: rows =>
    [ Effect.print (.testName name),
      Effect.post "http://localhost:8080/api/v1/lineitems" "application/json"
        (L.marshalLineItem payload),
      Effect.print (specVerdictLine (http k) expected) ]
    ++ specMatrixTrace L http (k + 1) rows

/-- A world for the validation probe: the `k`-th POST is answered with the `k`-th
status of the list (and with a transport error beyond the list). -/
def statusWorld (statuses : List Nat) (k : Nat) : HttpResult :=
  match statuses[k]? with
  | some status => .ok ⟨status, ""⟩
  | none => .error "connection refused" none

/-! ## The targeted-match probe as the specification words it -/

/-- The entry has at least one category and at least one keyword. -/
def hasTargeting (item : LineItemCreate) : Bool :=
  item.Categories.length ≠ 0 && item.Keywords.length ≠ 0

/-- The query of the specification: `placement`, `category`, `keyword` and `limit=4`,
one value each. -/
def specQuery (placement category keyword : String) : Values :=
  [("placement", [placement]), ("category", [category]), ("keyword", [keyword]), ("limit", ["4"])]

/-- The response decodes to a sequence holding an Ad with the entry's name, for an
entry that is not skipped. -/
def adMatched (L : StdLib) (item : LineItemCreate) (http : HttpResult) : Bool :=
  hasTargeting item &&
  match http with
  | .error _ _ => false
  | .ok resp =>
    match L.decodeAds resp.Body with
    | .error _ => false
    | .ok ads => ads.any (fun ad => ad.Name = item.Name)

/-- The verdict line of one targeted-match case for the entry named `name`, by the
outcome of its GET. -/
def specAdVerdict (L : StdLib) (name : String) (http : HttpResult) : Line :=
  match http with
  | .error err _ => .apiCallFailed err
  | .ok resp =>
    match L.decodeAds resp.Body with
    | .error err => .decodeFailed err
    | .ok ads =>
      if ads.any (fun ad => ad.Name = name) then .adPass name ads.length
      else if ads.length = 0 then .adFailNoAds name
      else .adFailNotFound name

/-- The GET requests the specification asks for one catalog entry: one request with
the entry's placement, first category and first keyword when it has both, none
otherwise. -/
def specRequests (L : StdLib) (item : LineItemCreate) : List String :=
  match item.Categories, item.Keywords with
  | c :: _, k :: _ =>
    ["http://localhost:8080/api/v1/ads?" ++ L.encode (specQuery item.Placement c k)]
  | _, _ => []

/-- The effects of iteration `k` of the targeted-match loop on a catalog. -/
def caseEffects (L : StdLib) (items : List LineItemCreate) (http : Nat → HttpResult)
    (totalTests k : Nat) : List Effect :=
  match items[k]? with
  | some item => (targetedCase L item (http k) k totalTests 0).1.trace
  | none => []

/-- Iteration `k` of the targeted-match loop on a catalog records a PASS. -/
def caseMatched (L : StdLib) (items : List LineItemCreate) (http : Nat → HttpResult)
    (k : Nat) : Bool :=
  match items[k]? with
  | some item => adMatched L item (http k)
  | none => false

/-- A world for the targeted-match probe: every GET is answered 200 with the given body. -/
def bodyWorld (body : String) (_ : Nat) : HttpResult := .ok ⟨200, body⟩

/-! ## Concrete inputs used to run the probes -/

/-- A line item returned by the service in the sample runs. -/
def sampleItem : LineItem :=
  { toLineItemCreate := ⟨"Summer Sale Banner", "adv123", 2.5, 3000.0, "homepage_top", [], []⟩,
    ID := "li-1", CreatedAt := "", UpdatedAt := "", Status := "active" }

/-- Library behaviour used in the sample runs: numbers parse when they are one of two
known numerals, bodies decode to one element, encodings are a chosen field. -/
def sampleLib : StdLib :=
  { parseFloat := fun s =>
      if s = "2.5" then .ok 2.5 else if s = "3000" then .ok 3000 else .error "invalid syntax"
    marshalLineItem := fun item => item.Name
    marshalEvent := fun e => e.UserID
    encode := fun v => String.join (v.map fun kv => kv.1 ++ "=" ++ String.join kv.2 ++ "&")
    decodeAds := fun body =>
      if body = "" then .ok [] else .ok [⟨"ad-1", body, "adv123", 2.5, "homepage_top", "", 1⟩]
    decodeLineItems := fun _ => .ok [sampleItem] }

/-- A world for the pipeline probe: the store counts `initial` then `final`, the
service lists line items, and every tracking POST gets the status `status`. -/
def sampleWorld (initial final status : Nat) : E2EWorld :=
  { openInitial := none
    scanInitial := .ok initial
    getLineItems := .ok ⟨200, "[...]"⟩
    postTracking := fun _ => .ok ⟨status, ""⟩
    openFinal := none
    scanFinal := .ok final }

/-! ## Lemmas on traces -/

theorem mem_printed (t : List Effect) (l : Line) : l ∈ printed t ↔ Effect.print l ∈ t := by
  induction t with
  | nil => simp [printed]
  | cons e t ih => cases e <;> simp [printed, ih]

theorem reportsPass_iff (r : Run) :
    r.reportsPass = true ↔ ∃ s i f, Effect.print (.e2ePass s i f) ∈ r.trace := by
  unfold Run.reportsPass
  rw [List.any_eq_true]
  constructor
  · rintro ⟨l, hl, hp⟩
    cases l <;> simp [Line.isPass] at hp
    exact ⟨_, _, _, (mem_printed _ _).1 hl⟩
  · rintro ⟨s, i, f, h⟩
    exact ⟨_, (mem_printed _ _).2 h, rfl⟩

theorem reportsFail_iff (r : Run) :
    r.reportsFail = true ↔ ∃ s g i f, Effect.print (.e2eFail s g i f) ∈ r.trace := by
  unfold Run.reportsFail
  rw [List.any_eq_true]
  constructor
  · rintro ⟨l, hl, hp⟩
    cases l <;> simp [Line.isFail] at hp
    exact ⟨_, _, _, _, (mem_printed _ _).1 hl⟩
  · rintro ⟨s, g, i, f, h⟩
    exact ⟨_, (mem_printed _ _).2 h, rfl⟩

/-! ## Lemmas on the injection loop -/

theorem injectionLoop_complete (L : StdLib) (w : E2EWorld) (item : LineItem) (n : Nat) :
    ∀ fuel s, s ≤ n → n - s < fuel →
      (∀ i, s ≤ i → i < n → accepted (w.postTracking i) = false) →
      injectionLoop L w item n fuel s =
        (⟨(List.range' s (n - s)).flatMap (fun i => injectionSend L item i ++ [.sleep 50]),
          .returned⟩, n) := by
  intro fuel
  induction fuel with
  | zero => intro s _ h; omega
  | succ fuel ih =>
    intro s hs hf hacc
    unfold injectionLoop
    by_cases hlt : s < n
    · have h1 : n - s = (n - (s + 1)) + 1 := by omega
      simp only [hlt, if_true, hacc s (le_refl s) hlt]
      rw [ih (s + 1) (by omega) (by omega) (fun i hi hin => hacc i (by omega) hin)]
      rw [h1, List.range'_succ]
      simp
    · have h0 : n - s = 0 := by omega
      have hn : s = n := by omega
      simp [hlt, h0, hn]

theorem injectionLoop_crash (L : StdLib) (w : E2EWorld) (item : LineItem) (n j : Nat)
    (hj : j < n) (hacc : accepted (w.postTracking j) = true) :
    ∀ fuel s, s ≤ j → n - s < fuel →
      (∀ i, s ≤ i → i < j → accepted (w.postTracking i) = false) →
      injectionLoop L w item n fuel s =
        (⟨(List.range' s (j - s)).flatMap (fun i => injectionSend L item i ++ [.sleep 50])
            ++ injectionSend L item j,
          .panicked "invalid memory address or nil pointer dereference"⟩, j) := by
  intro fuel
  induction fuel with
  | zero => intro s _ h; omega
  | succ fuel ih =>
    intro s hs hf hno
    unfold injectionLoop
    have hlt : s < n := by omega
    by_cases hsj : s = j
    · subst hsj
      simp [hlt, hacc]
    · have h1 : j - s = (j - (s + 1)) + 1 := by omega
      have hs' : s < j := by omega
      simp only [hlt, if_true, hno s (le_refl s) hs']
      rw [ih (s + 1) (by omega) (by omega) (fun i hi hij => hno i (by omega) hij)]
      rw [h1, List.range'_succ]
      simp

/-! ## The pipeline probe when the injection loop runs to its end -/

/-- The effects of the pipeline probe before its verdict, when both store queries
succeed, a line item is found and no tracking POST is accepted. -/
theorem e2e_run_complete (L : StdLib) (w : E2EWorld) (C F : Nat) (body : String)
    (itemToTrack : LineItem) (others : List LineItem)
    (hopen : w.openInitial = none) (hinit : w.scanInitial = .ok C)
    (hget : w.getLineItems = .ok ⟨StatusOK, body⟩)
    (hitems : L.decodeLineItems body = .ok (itemToTrack :: others))
    (hsend : ∀ i, i < 15 → accepted (w.postTracking i) = false)
    (hopen2 : w.openFinal = none) (hfinal : w.scanFinal = .ok F) :
    runE2ETrackingTest L w =
      ⟨[ Effect.print (.text "--- Running End-to-End Tracking Pipeline Test ---"),
         .print (.text "\n[PHASE 1] Getting initial row count from ClickHouse..."),
         .print (.initialCount C),
         .print (.text "\n[PHASE 2] Sending tracking events to the API..."),
         .get "http://localhost:8080/api/v1/lineitems" ]
        ++ (List.range' 0 15).flatMap (fun i => injectionSend L itemToTrack i ++ [.sleep 50])
        ++ [ .print (.sentEvents 15),
             .print (.text "\n[PHASE 3] Waiting 15 seconds for Kafka and ClickHouse to ingest the data..."),
             .sleep 20000,
             .print (.text "\n[PHASE 4] Querying ClickHouse for final row count..."),
             .print (.finalCount F),
             .print (.text "\n[RESULT]"),
             (if (15 : Int) = toInt (subUint64 F C)
               then .print (.e2ePass 15 C F)
               else .print (.e2eFail 15 (subUint64 F C) C F)),
             .print (.text "\n--- Test Complete ---") ],
       .returned⟩ := by
  have hloop := injectionLoop_complete L w itemToTrack 15 16 0 (by omega) (by omega)
    (fun i _ hi => hsend i hi)
  unfold runE2ETrackingTest
  simp only [hopen, hinit, hget, hitems, hopen2, hfinal]
  simp only [Nat.reduceAdd, ne_eq, not_true_eq_false, if_false, Nat.sub_zero] at hloop ⊢
  rw [hloop]
  by_cases hv : (15 : Int) = toInt (subUint64 F C) <;> simp [hv]

/-- Wrapping subtraction undoes an addition that does not overflow. -/
theorem subUint64_add (C K : Nat) (h : C + K < 2 ^ 64) : subUint64 (C + K) C = K := by
  unfold subUint64
  have hC : C % 2 ^ 64 = C := Nat.mod_eq_of_lt (by omega)
  rw [hC]
  have : C + K + 2 ^ 64 - C = K + 2 ^ 64 := by omega
  rw [this, Nat.add_mod_right]
  exact Nat.mod_eq_of_lt (by omega)

/-- The conversion to `int` of a `uint64` equals 15 only at 15. -/
theorem toInt_eq_fifteen (x : Nat) (h : x < 2 ^ 64) : (15 : Int) = toInt x ↔ x = 15 := by
  unfold toInt
  have hx : x % 2 ^ 64 = x := Nat.mod_eq_of_lt h
  rw [hx]
  split <;> omega

/-- No effect of the injection loop is a verdict line. -/
theorem injection_effects_not_verdict (L : StdLib) (item : LineItem) (s n : Nat) (e : Effect)
    (he : e ∈ (List.range' s n).flatMap (fun i => injectionSend L item i ++ [.sleep 50])) :
    (∀ a b c, e ≠ .print (.e2ePass a b c)) ∧ (∀ a b c d, e ≠ .print (.e2eFail a b c d)) ∧
    (∀ a, e ≠ .print (.sentEvents a)) := by
  simp only [List.mem_flatMap, injectionSend] at he
  obtain ⟨i, _, hi⟩ := he
  simp at hi
  rcases hi with h | h | h | h <;> subst h <;> simp

/-! ## C1: verdict of the pipeline probe -/

/-- C1. Pipeline probe verdict: when the baseline query returns `C`, the final query
returns `C + K` (representable in 64 bits) and the injection loop runs to its end (a
line item is found and no tracking POST trips the crash of the accepted branch), the
probe returns having printed that 15 events were sent, and it prints the PASS verdict
if and only if `K = 15` and the FAIL verdict if and only if `K ≠ 15`, with the counts
`15`, `K`, `C`, `C + K` in the line. -/
theorem e2e_verdict_pass_iff (L : StdLib) (w : E2EWorld) (C K : Nat) (body : String)
    (itemToTrack : LineItem) (others : List LineItem)
    (hrep : C + K < 2 ^ 64)
    (hopen : w.openInitial = none) (hinit : w.scanInitial = .ok C)
    (hget : w.getLineItems = .ok ⟨StatusOK, body⟩)
    (hitems : L.decodeLineItems body = .ok (itemToTrack :: others))
    (hsend : ∀ i, i < 15 → accepted (w.postTracking i) = false)
    (hopen2 : w.openFinal = none) (hfinal : w.scanFinal = .ok (C + K)) :
    (runE2ETrackingTest L w).exit = .returned ∧
    Effect.print (.sentEvents 15) ∈ (runE2ETrackingTest L w).trace ∧
    ((runE2ETrackingTest L w).reportsPass ↔ K = 15) ∧
    ((runE2ETrackingTest L w).reportsFail ↔ K ≠ 15) ∧
    (K = 15 → Effect.print (.e2ePass 15 C (C + K)) ∈ (runE2ETrackingTest L w).trace) ∧
    (K ≠ 15 → Effect.print (.e2eFail 15 K C (C + K)) ∈ (runE2ETrackingTest L w).trace) := by
  have hrun := e2e_run_complete L w C (C + K) body itemToTrack others hopen hinit hget hitems
    hsend hopen2 hfinal
  have hsub := subUint64_add C K hrep
  have hK : (15 : Int) = toInt K ↔ K = 15 := toInt_eq_fifteen K (by omega)
  have hloop := injection_effects_not_verdict L itemToTrack 0 15
  rw [hrun, hsub]
  rw [reportsPass_iff, reportsFail_iff]
  by_cases h15 : K = 15
  · rw [if_pos (hK.mpr h15)]
    refine ⟨rfl, by simp, ?_, ?_, fun _ => by simp, fun h => absurd h15 h⟩
    · simp only [h15, iff_true]
      exact ⟨15, C, C + 15, by simp⟩
    · simp only [h15, ne_eq, not_true_eq_false, iff_false]
      rintro ⟨a, b, c, d, hmem⟩
      simp only [List.mem_append, List.mem_cons] at hmem
      rcases hmem with (hmem | hmem) | hmem
      · simp at hmem
      · exact (hloop _ hmem).2.1 a b c d rfl
      · simp at hmem
  · rw [if_neg (fun h => h15 (hK.mp h))]
    refine ⟨rfl, by simp, ?_, ?_, fun h => absurd h h15, fun _ => by simp⟩
    · simp only [h15, iff_false]
      rintro ⟨a, b, c, hmem⟩
      simp only [List.mem_append, List.mem_cons] at hmem
      rcases hmem with (hmem | hmem) | hmem
      · simp at hmem
      · exact (hloop _ hmem).1 a b c rfl
      · simp at hmem
    · simp only [ne_eq, h15, not_false_eq_true, iff_true]
      exact ⟨15, K, C, C + K, by simp⟩

/-- The verdict theorem at the store counts 100 then 110 with every tracking POST
answered 500: the probe reports FAIL with an increase of 10. -/
theorem e2e_verdict_pass_iff_witness :
    ((runE2ETrackingTest sampleLib (sampleWorld 100 110 500)).exit = .returned ∧
    Effect.print (.sentEvents 15) ∈ (runE2ETrackingTest sampleLib (sampleWorld 100 110 500)).trace ∧
    ((runE2ETrackingTest sampleLib (sampleWorld 100 110 500)).reportsPass ↔ 10 = 15) ∧
    ((runE2ETrackingTest sampleLib (sampleWorld 100 110 500)).reportsFail ↔ 10 ≠ 15) ∧
    (10 = 15 → Effect.print (.e2ePass 15 100 (100 + 10))
      ∈ (runE2ETrackingTest sampleLib (sampleWorld 100 110 500)).trace) ∧
    (10 ≠ 15 → Effect.print (.e2eFail 15 10 100 (100 + 10))
      ∈ (runE2ETrackingTest sampleLib (sampleWorld 100 110 500)).trace)) ∧
    Line.render (.e2eFail 15 10 100 110)
      = "  ❌ FAIL: Mismatch! Sent 15 events, but row count only increased by 10 (from 100 to 110).\n" ∧
    Line.render (.e2ePass 15 100 115)
      = "  ✅ PASS: Sent 15 events. Row count correctly increased from 100 to 115.\n" :=
  ⟨e2e_verdict_pass_iff sampleLib (sampleWorld 100 110 500) 100 10 "[...]" sampleItem []
    (by norm_num) rfl rfl rfl rfl (fun _ _ => rfl) rfl rfl, by decide, by decide⟩

/-! ## C2: an accepted tracking POST stops the injection loop -/

theorem posts_append (a b : List Effect) : posts (a ++ b) = posts a ++ posts b := by
  induction a with
  | nil => rfl
  | cons e a ih => cases e <;> simp [posts, ih]

/-- The POSTs of whole iterations of the injection loop: one per iteration, carrying
the event of that iteration. -/
theorem posts_injection (L : StdLib) (item : LineItem) :
    ∀ n s, posts ((List.range' s n).flatMap (fun i => injectionSend L item i ++ [.sleep 50]))
      = (List.range' s n).map
          (fun i => ("http://localhost:8080/api/v1/tracking", L.marshalEvent (mkEvent item i))) := by
  intro n
  induction n with
  | zero => intro s; rfl
  | succ n ih =>
    intro s
    rw [List.range'_succ, List.flatMap_cons, posts_append, ih]
    simp [injectionSend, posts]

/-- The effects of the pipeline probe when a tracking POST is accepted: the run stops
in the iteration of the first accepted POST. -/
theorem e2e_run_crash (L : StdLib) (w : E2EWorld) (C : Nat) (body : String)
    (itemToTrack : LineItem) (others : List LineItem) (j : Nat)
    (hopen : w.openInitial = none) (hinit : w.scanInitial = .ok C)
    (hget : w.getLineItems = .ok ⟨StatusOK, body⟩)
    (hitems : L.decodeLineItems body = .ok (itemToTrack :: others))
    (hj : j < 15) (hacc : accepted (w.postTracking j) = true)
    (hfirst : ∀ i, i < j → accepted (w.postTracking i) = false) :
    runE2ETrackingTest L w =
      ⟨[ Effect.print (.text "--- Running End-to-End Tracking Pipeline Test ---"),
         .print (.text "\n[PHASE 1] Getting initial row count from ClickHouse..."),
         .print (.initialCount C),
         .print (.text "\n[PHASE 2] Sending tracking events to the API..."),
         .get "http://localhost:8080/api/v1/lineitems" ]
        ++ ((List.range' 0 j).flatMap (fun i => injectionSend L itemToTrack i ++ [.sleep 50])
        ++ injectionSend L itemToTrack j),
       .panicked "invalid memory address or nil pointer dereference"⟩ := by
  have hloop := injectionLoop_crash L w itemToTrack 15 j hj hacc 16 0 (by omega) (by omega)
    (fun i _ hi => hfirst i hi)
  unfold runE2ETrackingTest
  simp only [hopen, hinit, hget, hitems]
  simp only [Nat.reduceAdd, ne_eq, not_true_eq_false, if_false, Nat.sub_zero] at hloop ⊢
  rw [hloop]
  simp

/-- C2 (evaluation of the code where the claim fails). When the line item is found
and the tracking POST of some iteration `j < 15` is the first one accepted with
status 202, the pipeline probe does not finish the injection loop: it stops with a
run-time panic in iteration `j`, having issued `j + 1` POSTs, without printing the
count of sent events, without the settle sleep and without a verdict. -/
theorem e2e_accepted_post_panics (L : StdLib) (w : E2EWorld) (C : Nat) (body : String)
    (itemToTrack : LineItem) (others : List LineItem) (j : Nat)
    (hopen : w.openInitial = none) (hinit : w.scanInitial = .ok C)
    (hget : w.getLineItems = .ok ⟨StatusOK, body⟩)
    (hitems : L.decodeLineItems body = .ok (itemToTrack :: others))
    (hj : j < 15) (hacc : accepted (w.postTracking j) = true)
    (hfirst : ∀ i, i < j → accepted (w.postTracking i) = false) :
    (runE2ETrackingTest L w).exit = .panicked "invalid memory address or nil pointer dereference" ∧
    (posts (runE2ETrackingTest L w).trace).length = j + 1 ∧
    (∀ n, Effect.print (.sentEvents n) ∉ (runE2ETrackingTest L w).trace) ∧
    Effect.sleep 20000 ∉ (runE2ETrackingTest L w).trace ∧
    ¬ (runE2ETrackingTest L w).reportsPass ∧
    ¬ (runE2ETrackingTest L w).reportsFail := by
  have hrun := e2e_run_crash L w C body itemToTrack others j hopen hinit hget hitems hj hacc hfirst
  have hloop := injection_effects_not_verdict L itemToTrack 0 j
  have hsleep : ∀ e ∈ (List.range' 0 j).flatMap
      (fun i => injectionSend L itemToTrack i ++ [Effect.sleep 50]), e ≠ Effect.sleep 20000 := by
    intro e he
    simp only [List.mem_flatMap, injectionSend] at he
    obtain ⟨i, _, hi⟩ := he
    simp at hi
    rcases hi with h | h | h | h <;> subst h <;> simp
  rw [hrun]
  rw [reportsPass_iff, reportsFail_iff]
  refine ⟨rfl, ?_, ?_, ?_, ?_, ?_⟩
  · simp only [posts_append, posts_injection]
    simp [posts, injectionSend]
  · intro n hmem
    simp only [List.mem_append, List.mem_cons] at hmem
    rcases hmem with hmem | hmem | hmem
    · simp at hmem
    · exact (hloop _ hmem).2.2 n rfl
    · simp [injectionSend] at hmem
  · intro hmem
    simp only [List.mem_append, List.mem_cons] at hmem
    rcases hmem with hmem | hmem | hmem
    · simp at hmem
    · exact hsleep _ hmem rfl
    · simp [injectionSend] at hmem
  · rintro ⟨a, b, c, hmem⟩
    simp only [List.mem_append, List.mem_cons] at hmem
    rcases hmem with hmem | hmem | hmem
    · simp at hmem
    · exact (hloop _ hmem).1 a b c rfl
    · simp [injectionSend] at hmem
  · rintro ⟨a, b, c, d, hmem⟩
    simp only [List.mem_append, List.mem_cons] at hmem
    rcases hmem with hmem | hmem | hmem
    · simp at hmem
    · exact (hloop _ hmem).2.1 a b c d rfl
    · simp [injectionSend] at hmem

/-- The store counts 100 then 115, one line item, every tracking POST accepted with
202: the probe panics in the first iteration after one POST and reports nothing. -/
theorem e2e_accepted_post_panics_witness :
    (runE2ETrackingTest sampleLib (sampleWorld 100 115 202)).exit
      = .panicked "invalid memory address or nil pointer dereference" ∧
    (posts (runE2ETrackingTest sampleLib (sampleWorld 100 115 202)).trace).length = 0 + 1 ∧
    (∀ n, Effect.print (.sentEvents n)
      ∉ (runE2ETrackingTest sampleLib (sampleWorld 100 115 202)).trace) ∧
    Effect.sleep 20000 ∉ (runE2ETrackingTest sampleLib (sampleWorld 100 115 202)).trace ∧
    ¬ (runE2ETrackingTest sampleLib (sampleWorld 100 115 202)).reportsPass ∧
    ¬ (runE2ETrackingTest sampleLib (sampleWorld 100 115 202)).reportsFail :=
  e2e_accepted_post_panics sampleLib (sampleWorld 100 115 202) 100 "[...]" sampleItem [] 0
    rfl rfl rfl rfl (by norm_num) rfl (fun i hi => absurd hi (Nat.not_lt_zero i))

/-! ## C3 and C4: the validation probe -/

theorem runTestCase_trace (L : StdLib) (http : HttpResult) (name : String)
    (payload : LineItemCreate) (expected pc : Nat) :
    (runTestCase L http name payload expected pc).1 =
      [ Effect.print (.testName name),
        Effect.post "http://localhost:8080/api/v1/lineitems" "application/json"
          (L.marshalLineItem payload),
        Effect.print (specVerdictLine http expected) ] := by
  unfold runTestCase specVerdictLine
  cases http with
  | error err resp => simp
  | ok resp => by_cases h : resp.StatusCode = expected <;> simp [h]

theorem runTestCase_count (L : StdLib) (http : HttpResult) (name : String)
    (payload : LineItemCreate) (expected pc : Nat) :
    (runTestCase L http name payload expected pc).2 =
      pc + (if casePassed http expected then 1 else 0) := by
  unfold runTestCase casePassed
  cases http with
  | error err resp => simp
  | ok resp => by_cases h : resp.StatusCode = expected <;> simp [h]

theorem stringsRepeat_a (n : Nat) :
    stringsRepeat "a" n = String.mk (List.replicate n 'a') := by
  induction n with
  | zero => rfl
  | succ n ih => rw [stringsRepeat, ih]; rfl

/-- C3. Validation tally: a creation case increments the count of passed cases, and
prints the PASS line, if and only if a response was received with the expected
status; the last line of the probe is the summary `p/6` where `p` is the number of
cases `k < 6` whose response has the expected status (201 for the first, 400 for the
others); statuses 201,400,400,400,400,400 give `6/6` and 200,400,400,400,400,400 give
`5/6`. -/
theorem validation_tally (L : StdLib) (http : Nat → HttpResult) :
    (∀ (r : HttpResult) (name : String) (payload : LineItemCreate) (expected pc : Nat),
      ((runTestCase L r name payload expected pc).2 = pc + 1
        ↔ ∃ resp, r = .ok resp ∧ resp.StatusCode = expected) ∧
      ((runTestCase L r name payload expected pc).2 = pc
        ↔ ¬ ∃ resp, r = .ok resp ∧ resp.StatusCode = expected) ∧
      (Effect.print (.statusPass expected) ∈ (runTestCase L r name payload expected pc).1
        ↔ ∃ resp, r = .ok resp ∧ resp.StatusCode = expected)) ∧
    (runValidationTests L http).exit = .returned ∧
    (runValidationTests L http).trace.getLast? = some (.print (.validationSummary
      ((List.range 6).countP (fun k => casePassed (http k) (specExpectedStatus k))) 6)) ∧
    (printed (runValidationTests L (statusWorld [201, 400, 400, 400, 400, 400])).trace).getLast?
      = some (.validationSummary 6 6) ∧
    (printed (runValidationTests L (statusWorld [200, 400, 400, 400, 400, 400])).trace).getLast?
      = some (.validationSummary 5 6) ∧
    Line.render (.validationSummary 6 6)
      = "\n--- Validation Test Summary: 6/6 tests passed. ---\n" ∧
    Line.render (.validationSummary 5 6)
      = "\n--- Validation Test Summary: 5/6 tests passed. ---\n" := by
  refine ⟨?_, rfl, ?_, ?_, ?_, by decide, by decide⟩
  · intro r name payload expected pc
    rw [runTestCase_trace, runTestCase_count]
    cases r with
    | error err resp => simp [casePassed, specVerdictLine]
    | ok resp =>
      by_cases h : resp.StatusCode = expected <;> simp [casePassed, specVerdictLine, h]
  · unfold runValidationTests
    simp only [runTestCase_count, List.getLast?_append, List.getLast?_singleton]
    simp [List.range_succ, List.countP_append, List.countP_cons, specExpectedStatus,
      StatusCreated, StatusBadRequest, Nat.add_assoc]
    ac_rfl
  · unfold runValidationTests
    simp only [runTestCase_count, runTestCase_trace]
    simp [printed, statusWorld, casePassed, StatusCreated, StatusBadRequest]
  · unfold runValidationTests
    simp only [runTestCase_count, runTestCase_trace]
    simp [printed, statusWorld, casePassed, StatusCreated, StatusBadRequest]

theorem validItem_eq_specBaseline : validItem = specBaseline := by
  unfold validItem specBaseline
  norm_num

/-- C4. Validation matrix payloads: whatever the service answers, the validation probe
runs exactly the six rows of the specification's matrix in order (case name, one POST
of the row's payload, one verdict line against the row's expected status) and then
prints the summary; the six POST bodies are the encodings of the baseline and of the
baseline with one field changed (name of 101 characters, bid 0.05, budget 10001,
placement `this_is_not_a_valid_placement`, empty name), every other field keeping the
baseline's value in each of them; the expected statuses are 201, 400, 400, 400, 400,
400. -/
theorem validation_matrix_payloads (L : StdLib) (http : Nat → HttpResult) :
    (runValidationTests L http).trace =
      [Effect.print (.text "--- Running Line Item Creation Validation Tests ---")]
        ++ specMatrixTrace L http 0 specValidationMatrix
        ++ [Effect.print (.validationSummary
              ((List.range 6).countP (fun k => casePassed (http k) (specExpectedStatus k))) 6)] ∧
    posts (runValidationTests L http).trace =
      [ ("http://localhost:8080/api/v1/lineitems",
          L.marshalLineItem ⟨"Valid Test Item", "adv-valid", 5, 5000, "homepage_top", [], []⟩),
        ("http://localhost:8080/api/v1/lineitems",
          L.marshalLineItem
            ⟨String.mk (List.replicate 101 'a'), "adv-valid", 5, 5000, "homepage_top", [], []⟩),
        ("http://localhost:8080/api/v1/lineitems",
          L.marshalLineItem ⟨"Valid Test Item", "adv-valid", 0.05, 5000, "homepage_top", [], []⟩),
        ("http://localhost:8080/api/v1/lineitems",
          L.marshalLineItem ⟨"Valid Test Item", "adv-valid", 5, 10001, "homepage_top", [], []⟩),
        ("http://localhost:8080/api/v1/lineitems",
          L.marshalLineItem
            ⟨"Valid Test Item", "adv-valid", 5, 5000, "this_is_not_a_valid_placement", [], []⟩),
        ("http://localhost:8080/api/v1/lineitems",
          L.marshalLineItem ⟨"", "adv-valid", 5, 5000, "homepage_top", [], []⟩) ] ∧
    (String.mk (List.replicate 101 'a')).length = 101 ∧
    specValidationMatrix.map (fun row => row.2.2) = [201, 400, 400, 400, 400, 400] ∧
    validItem = ⟨"Valid Test Item", "adv-valid", 5, 5000, "homepage_top", [], []⟩ := by
  have htrace : (runValidationTests L http).trace =
      [Effect.print (.text "--- Running Line Item Creation Validation Tests ---")]
        ++ specMatrixTrace L http 0 specValidationMatrix
        ++ [Effect.print (.validationSummary
              ((List.range 6).countP (fun k => casePassed (http k) (specExpectedStatus k))) 6)] := by
    unfold runValidationTests
    simp only [runTestCase_count, runTestCase_trace, stringsRepeat_a, validItem_eq_specBaseline]
    simp [specMatrixTrace, specValidationMatrix, List.range_succ, List.countP_append,
      List.countP_cons, specExpectedStatus, StatusCreated, StatusBadRequest, Nat.add_assoc]
    ac_rfl
  refine ⟨htrace, ?_, by simp [String.length], rfl, validItem_eq_specBaseline⟩
  rw [htrace]
  simp [posts_append, posts, specMatrixTrace, specValidationMatrix, specBaseline]

/-! ## C5, C6, C9: the targeted-match probe -/

theorem gets_append (a b : List Effect) : gets (a ++ b) = gets a ++ gets b := by
  induction a with
  | nil => rfl
  | cons e a ih => cases e <;> simp [gets, ih]

/-- One iteration on an entry with a category and a keyword: the five lines, the GET
with the specified query, one verdict line; the iteration ends normally. -/
theorem targetedCase_eligible (L : StdLib) (name adv : String) (bid budget : ℚ)
    (placement c : String) (cs : List String) (k : String) (ks : List String)
    (http : HttpResult) (i total pc : Nat) :
    targetedCase L ⟨name, adv, bid, budget, placement, c :: cs, k :: ks⟩ http i total pc =
      (⟨[ Effect.print (.adTestHeader (i + 1) total name),
          .print (.usingTargeting placement c k),
          .print (.prediction name),
          .print (.curlGet ("http://localhost:8080/api/v1/ads?" ++ L.encode (specQuery placement c k))),
          .print (.text "  - ACTION: Calling the real API..."),
          .get ("http://localhost:8080/api/v1/ads?" ++ L.encode (specQuery placement c k)),
          .print (specAdVerdict L name http) ], .returned⟩,
        pc + (if adMatched L ⟨name, adv, bid, budget, placement, c :: cs, k :: ks⟩ http
              then 1 else 0)) := by
  have hq : Values.add (Values.add (Values.add (Values.add [] "placement" placement)
      "category" c) "keyword" k) "limit" "4" = specQuery placement c k := by
    simp [Values.add, specQuery]
  unfold targetedCase adMatched hasTargeting specAdVerdict
  simp only [List.length_cons, Nat.add_one_ne_zero, or_self, if_false, List.getElem?_cons_zero, hq]
  cases http with
  | error err resp => simp
  | ok resp =>
    cases hdec : L.decodeAds resp.Body with
    | error err => simp [hdec]
    | ok ads =>
      simp only [hdec]
      by_cases hfound : (ads.any fun ad => decide (ad.Name = name)) = true
      · simp [hfound]
      · by_cases hlen : ads.length = 0
        · simp [hfound, hlen]
        · simp [hfound, hlen]

/-- One iteration on an entry without categories or without keywords: the header
and the skip line, nothing else. -/
theorem targetedCase_skipped (L : StdLib) (item : LineItemCreate) (http : HttpResult)
    (i total pc : Nat) (h : hasTargeting item = false) :
    targetedCase L item http i total pc =
      (⟨[ Effect.print (.adTestHeader (i + 1) total item.Name),
          .print (.text "  [SKIP] Item has no categories or keywords to test with.") ],
        .returned⟩, pc) := by
  unfold hasTargeting at h
  have h' : item.Categories.length = 0 ∨ item.Keywords.length = 0 := by
    by_cases hc : item.Categories.length = 0
    · exact Or.inl hc
    · by_cases hk : item.Keywords.length = 0
      · exact Or.inr hk
      · simp [hc, hk] at h
  unfold targetedCase
  rw [if_pos h']

/-- Every iteration ends normally; its effects do not depend on the running count, and
the count grows by one exactly when the iteration records a PASS. -/
theorem targetedCase_general (L : StdLib) (item : LineItemCreate) (http : HttpResult)
    (i total pc : Nat) :
    targetedCase L item http i total pc =
      (⟨(targetedCase L item http i total 0).1.trace, .returned⟩,
        pc + (if adMatched L item http then 1 else 0)) := by
  obtain ⟨name, adv, bid, budget, placement, cats, kws⟩ := item
  cases cats with
  | nil =>
    have h : hasTargeting ⟨name, adv, bid, budget, placement, [], kws⟩ = false := by
      simp [hasTargeting]
    rw [targetedCase_skipped L _ http i total pc h, targetedCase_skipped L _ http i total 0 h]
    simp [adMatched, h]
  | cons c cs =>
    cases kws with
    | nil =>
      have h : hasTargeting ⟨name, adv, bid, budget, placement, c :: cs, []⟩ = false := by
        simp [hasTargeting]
      rw [targetedCase_skipped L _ http i total pc h, targetedCase_skipped L _ http i total 0 h]
      simp [adMatched, h]
    | cons k ks =>
      rw [targetedCase_eligible, targetedCase_eligible]

/-- The targeted-match loop on a catalog holding at least `total` entries: it runs
every iteration from `i` to `total` and returns. -/
theorem targetedLoop_spec (L : StdLib) (items : List LineItemCreate) (http : Nat → HttpResult)
    (total : Nat) (hlen : total ≤ items.length) :
    ∀ fuel i pc, i ≤ total → total - i < fuel →
      targetedLoop L items http total fuel i pc =
        (⟨(List.range' i (total - i)).flatMap (caseEffects L items http total), .returned⟩,
          pc + (List.range' i (total - i)).countP (caseMatched L items http)) := by
  intro fuel
  induction fuel with
  | zero => intro i pc _ h; omega
  | succ fuel ih =>
    intro i pc hi hf
    unfold targetedLoop
    by_cases hlt : i < total
    · have hget : items[i]? = some (items[i]) := List.getElem?_eq_getElem (by omega)
      have h1 : total - i = (total - (i + 1)) + 1 := by omega
      simp only [hlt, if_true, hget]
      rw [targetedCase_general]
      simp only
      rw [ih (i + 1) _ (by omega) (by omega), h1, List.range'_succ, List.flatMap_cons,
        List.countP_cons]
      simp only [caseEffects, caseMatched, hget]
      congr 1
      omega
    · have h0 : total - i = 0 := by omega
      simp [hlt, h0]

/-- The targeted-match probe on a catalog holding at least five entries. -/
theorem runTargetedAdTestsOn_spec (L : StdLib) (items : List LineItemCreate)
    (http : Nat → HttpResult) (hlen : 5 ≤ items.length) :
    runTargetedAdTestsOn L items http =
      ⟨Effect.print (.text "--- Running Simplified & Targeted Ad Logic Tests (First 5 Items) ---")
        :: (List.range' 0 5).flatMap (caseEffects L items http 5)
        ++ [Effect.print (.adSummary ((List.range' 0 5).countP (caseMatched L items http)) 5)],
       .returned⟩ := by
  have h := targetedLoop_spec L items http 5 hlen 6 0 0 (by omega) (by omega)
  unfold runTargetedAdTestsOn
  simp only [Nat.reduceAdd, Nat.sub_zero, Nat.zero_add] at h ⊢
  rw [h]

/-- The GET requests of one iteration are those the specification asks for the entry. -/
theorem gets_targetedCase (L : StdLib) (item : LineItemCreate) (http : HttpResult)
    (i total pc : Nat) :
    gets (targetedCase L item http i total pc).1.trace = specRequests L item := by
  obtain ⟨name, adv, bid, budget, placement, cats, kws⟩ := item
  cases cats with
  | nil =>
    rw [targetedCase_skipped L _ http i total pc (by simp [hasTargeting])]
    simp [gets, specRequests]
  | cons c cs =>
    cases kws with
    | nil =>
      rw [targetedCase_skipped L _ http i total pc (by simp [hasTargeting])]
      simp [gets, specRequests]
    | cons k ks =>
      rw [targetedCase_eligible]
      simp [gets, specRequests]

/-- The GET requests of the targeted-match probe on a catalog of at least five
entries: those the specification asks for its first five entries, in order. -/
theorem gets_runTargetedAdTestsOn (L : StdLib) (items : List LineItemCreate)
    (http : Nat → HttpResult) (hlen : 5 ≤ items.length) :
    gets (runTargetedAdTestsOn L items http).trace = (items.take 5).flatMap (specRequests L) := by
  rw [runTargetedAdTestsOn_spec L items http hlen]
  match items, hlen with
  | a :: b :: c :: d :: e :: rest, _ =>
    simp [List.range', gets, gets_append, caseEffects, gets_targetedCase]

theorem caseMatched_iff (L : StdLib) (items : List LineItemCreate) (http : Nat → HttpResult)
    (i : Nat) :
    caseMatched L items http i = true ↔
      ∃ item resp ads, items[i]? = some item ∧ hasTargeting item = true ∧ http i = .ok resp ∧
        L.decodeAds resp.Body = .ok ads ∧ ∃ ad ∈ ads, ad.Name = item.Name := by
  unfold caseMatched
  cases hitem : items[i]? with
  | none => simp
  | some item =>
    unfold adMatched
    cases hr : http i with
    | error err resp => simp
    | ok resp =>
      cases hdec : L.decodeAds resp.Body with
      | error err => simp [hdec]
      | ok ads => simp [hdec]

/-- C5. Targeted-match verdict: for an entry with at least one category and one
keyword whose GET is answered by a body that decodes to the sequence `ads`, the
iteration records a PASS (it increments the pass count and prints the PASS line) if
and only if `ads` holds an Ad whose name equals the entry's name; on an empty
sequence it records a FAIL.  The probe returns, and the numerator of its summary line is
the number of iterations among the five that recorded a PASS. -/
theorem targeted_match_verdict (L : StdLib) (http : Nat → HttpResult)
    (name adv : String) (bid budget : ℚ) (placement c : String) (cs : List String)
    (k : String) (ks : List String) (resp : Response) (ads : List Ad) (i total pc : Nat)
    (hdec : L.decodeAds resp.Body = .ok ads) :
    ((targetedCase L ⟨name, adv, bid, budget, placement, c :: cs, k :: ks⟩ (.ok resp) i total pc).2
        = pc + 1 ↔ ∃ ad ∈ ads, ad.Name = name) ∧
    ((targetedCase L ⟨name, adv, bid, budget, placement, c :: cs, k :: ks⟩ (.ok resp) i total pc).2
        = pc ↔ ¬ ∃ ad ∈ ads, ad.Name = name) ∧
    (Effect.print (.adPass name ads.length)
        ∈ (targetedCase L ⟨name, adv, bid, budget, placement, c :: cs, k :: ks⟩ (.ok resp)
            i total pc).1.trace ↔ ∃ ad ∈ ads, ad.Name = name) ∧
    (ads = [] →
      Effect.print (.adFailNoAds name)
        ∈ (targetedCase L ⟨name, adv, bid, budget, placement, c :: cs, k :: ks⟩ (.ok resp)
            i total pc).1.trace) ∧
    (runTargetedAdTests L http).exit = .returned ∧
    (runTargetedAdTests L http).trace.getLast? = some (.print (.adSummary
      ((List.range 5).countP (caseMatched L getKnownLineItems http)) 5)) ∧
    (∀ n, caseMatched L getKnownLineItems http n = true ↔
      ∃ item resp ads, getKnownLineItems[n]? = some item ∧ hasTargeting item = true ∧
        http n = .ok resp ∧ L.decodeAds resp.Body = .ok ads ∧ ∃ ad ∈ ads, ad.Name = item.Name) := by
  have hrun := runTargetedAdTestsOn_spec L getKnownLineItems http (by simp [getKnownLineItems])
  rw [targetedCase_eligible]
  refine ⟨?_, ?_, ?_, ?_, ?_, ?_, caseMatched_iff L getKnownLineItems http⟩
  · by_cases h : (ads.any fun ad => decide (ad.Name = name)) = true
    · have h' := h
      simp only [List.any_eq_true, decide_eq_true_eq] at h'
      simp [adMatched, hasTargeting, hdec, h']
    · have h' := h
      simp only [List.any_eq_true, decide_eq_true_eq] at h'
      simp [adMatched, hasTargeting, hdec, h']
  · by_cases h : (ads.any fun ad => decide (ad.Name = name)) = true
    · have h' := h
      simp only [List.any_eq_true, decide_eq_true_eq] at h'
      simp [adMatched, hasTargeting, hdec, h']
    · have h' := h
      simp only [List.any_eq_true, decide_eq_true_eq] at h'
      simp [adMatched, hasTargeting, hdec, h']
  · by_cases h : (ads.any fun ad => decide (ad.Name = name)) = true
    · have h' := h
      simp only [List.any_eq_true, decide_eq_true_eq] at h'
      simp [specAdVerdict, hdec, h, h']
    · have h' := h
      simp only [List.any_eq_true, decide_eq_true_eq] at h'
      by_cases hl : ads.length = 0 <;> simp [specAdVerdict, hdec, h, h', hl]
  · intro hnil
    subst hnil
    simp [specAdVerdict, hdec]
  · unfold runTargetedAdTests
    rw [hrun]
  · unfold runTargetedAdTests
    rw [hrun, List.range_eq_range']
    simp only [Run.trace]
    rw [List.getLast?_append]
    simp

/-- The first fixture entry, a response naming it: the iteration records a PASS. -/
theorem targeted_match_verdict_witness :
    sampleLib.decodeAds "Summer Sale Banner"
      = .ok [⟨"ad-1", "Summer Sale Banner", "adv123", 2.5, "homepage_top", "", 1⟩] ∧
    ((targetedCase sampleLib
        ⟨"Summer Sale Banner", "adv123", 2.5, 3000.0, "homepage_top", "electronics" :: ["sports"],
          "summer" :: ["discount"]⟩
        (.ok ⟨200, "Summer Sale Banner"⟩) 0 5 0).2 = 0 + 1
      ↔ ∃ ad ∈ [(⟨"ad-1", "Summer Sale Banner", "adv123", 2.5, "homepage_top", "", 1⟩ : Ad)],
          ad.Name = "Summer Sale Banner") :=
  ⟨rfl, (targeted_match_verdict sampleLib (bodyWorld "Summer Sale Banner")
    "Summer Sale Banner" "adv123" 2.5 3000.0 "homepage_top" "electronics" ["sports"]
    "summer" ["discount"] ⟨200, "Summer Sale Banner"⟩
    [⟨"ad-1", "Summer Sale Banner", "adv123", 2.5, "homepage_top", "", 1⟩] 0 5 0 rfl).1⟩

/-- C9. Targeted-match query shape: whatever the service answers, the probe on the
built-in catalog returns without a run-time panic (the reads `catalog[i]` for `i < 5`,
`categories[0]` and `keywords[0]` are in bounds) and issues exactly five GETs, one per
entry among the first five, each to the ads endpoint with the encoding of the query
holding exactly `placement`, `category`, `keyword` and `limit` with the one value
entry.placement, entry.categories[0], entry.keywords[0] and `4`; in general an
iteration on an entry with a category and a keyword issues exactly that one GET. -/
theorem targeted_query_shape (L : StdLib) (http : Nat → HttpResult) :
    (runTargetedAdTests L http).exit = .returned ∧
    gets (runTargetedAdTests L http).trace =
      [ "http://localhost:8080/api/v1/ads?" ++ L.encode (specQuery "homepage_top" "electronics" "summer"),
        "http://localhost:8080/api/v1/ads?" ++ L.encode (specQuery "video_preroll" "fashion" "clearance"),
        "http://localhost:8080/api/v1/ads?" ++ L.encode (specQuery "article_inline_1" "travel" "exclusive"),
        "http://localhost:8080/api/v1/ads?" ++ L.encode (specQuery "homepage_top" "gaming" "sale"),
        "http://localhost:8080/api/v1/ads?" ++ L.encode (specQuery "video_preroll" "home" "deal") ] ∧
    gets (runTargetedAdTests L http).trace
      = (getKnownLineItems.take 5).flatMap (specRequests L) ∧
    (∀ i, i < 5 → ∃ item c cs k ks, getKnownLineItems[i]? = some item ∧
      item.Categories[0]? = some c ∧ item.Keywords[0]? = some k ∧
      item.Categories = c :: cs ∧ item.Keywords = k :: ks ∧
      specRequests L item
        = ["http://localhost:8080/api/v1/ads?" ++ L.encode (specQuery item.Placement c k)]) ∧
    (∀ (name adv : String) (bid budget : ℚ) (placement c : String) (cs : List String)
        (k : String) (ks : List String) (r : HttpResult) (i total pc : Nat),
      gets (targetedCase L ⟨name, adv, bid, budget, placement, c :: cs, k :: ks⟩ r i total pc).1.trace
        = ["http://localhost:8080/api/v1/ads?" ++ L.encode (specQuery placement c k)] ∧
      (targetedCase L ⟨name, adv, bid, budget, placement, c :: cs, k :: ks⟩ r i total pc).1.exit
        = .returned) ∧
    (∀ p c k : String,
      Values.add (Values.add (Values.add (Values.add [] "placement" p) "category" c)
        "keyword" k) "limit" "4" = specQuery p c k) ∧
    (∀ p c k key : String, Values.get (specQuery p c k) key =
      if key = "placement" then [p] else if key = "category" then [c]
      else if key = "keyword" then [k] else if key = "limit" then ["4"] else []) := by
  have hlen : 5 ≤ getKnownLineItems.length := by simp [getKnownLineItems]
  have hgets := gets_runTargetedAdTestsOn L getKnownLineItems http hlen
  refine ⟨?_, ?_, hgets, ?_, ?_, ?_, ?_⟩
  · unfold runTargetedAdTests
    rw [runTargetedAdTestsOn_spec L getKnownLineItems http hlen]
  · unfold runTargetedAdTests
    rw [hgets]
    simp [getKnownLineItems, specRequests]
  · intro i hi
    interval_cases i
    · exact ⟨_, "electronics", ["sports"], "summer", ["discount"], rfl, rfl, rfl, rfl, rfl, rfl⟩
    · exact ⟨_, "fashion", ["beauty"], "clearance", ["deal"], rfl, rfl, rfl, rfl, rfl, rfl⟩
    · exact ⟨_, "travel", ["food"], "exclusive", ["trending"], rfl, rfl, rfl, rfl, rfl, rfl⟩
    · exact ⟨_, "gaming", ["electronics"], "sale", ["new"], rfl, rfl, rfl, rfl, rfl, rfl⟩
    · exact ⟨_, "home", ["sports"], "deal", ["discount"], rfl, rfl, rfl, rfl, rfl, rfl⟩
  · intro name adv bid budget placement c cs k ks r i total pc
    rw [targetedCase_eligible]
    simp [gets]
  · intro p c k
    simp [Values.add, specQuery]
  · intro p c k key
    simp only [specQuery, Values.get]
    by_cases h1 : "placement" = key
    · subst h1; simp
    · by_cases h2 : "category" = key
      · subst h2; simp
      · by_cases h3 : "keyword" = key
        · subst h3; simp
        · by_cases h4 : "limit" = key
          · subst h4; simp
          · simp [h1, h2, h3, h4, Ne.symm h1, Ne.symm h2, Ne.symm h3, Ne.symm h4]

/-! ## C7: argument errors of the create probe -/

/-- C7 (the claim fails on an unparseable bid). With five positional arguments whose
bid `abc` does not parse, the create probe prints the one line naming the invalid
bid and returns: it issues no request, and no line of the usage block is printed. -/
theorem create_parse_error_prints_no_usage :
    runCreateLineItem sampleLib
        ["main", "create", "Item", "adv1", "abc", "3000", "homepage_top"] (.ok ⟨201, ""⟩)
      = ⟨[.print (.text "Error: Invalid bid amount. Must be a number.")], .returned⟩ ∧
    sampleLib.parseFloat "abc" = .error "invalid syntax" ∧
    ∀ e ∈ printUsage,
      e ∉ (runCreateLineItem sampleLib
        ["main", "create", "Item", "adv1", "abc", "3000", "homepage_top"] (.ok ⟨201, ""⟩)).trace := by
  refine ⟨rfl, rfl, ?_⟩
  intro e he
  have hrun : runCreateLineItem sampleLib
      ["main", "create", "Item", "adv1", "abc", "3000", "homepage_top"] (.ok ⟨201, ""⟩)
      = ⟨[.print (.text "Error: Invalid bid amount. Must be a number.")], .returned⟩ := rfl
  rw [hrun]
  simp only [printUsage, List.mem_cons, List.mem_singleton, List.not_mem_nil, or_false] at he
  rcases he with h | h | h | h | h | h | h | h | h <;> subst h <;> decide

/-- C7 (amended). The create probe issues no HTTP request on an argument error and
returns: when the argument vector does not hold five positional arguments it prints
the error line followed by the usage block; when the bid does not parse it prints
only the line naming the invalid bid; when the bid parses and the budget does not, it
prints only the line naming the invalid budget. -/
theorem create_argument_errors (L : StdLib) (args : List String) (http : HttpResult) :
    (args.length ≠ 7 →
      runCreateLineItem L args http
        = ⟨.print (.text "Error: 'create' command requires 5 arguments.") :: printUsage,
            .returned⟩ ∧
      posts (runCreateLineItem L args http).trace = [] ∧
      gets (runCreateLineItem L args http).trace = []) ∧
    (∀ a0 a1 a2 a3 a4 a5 a6 err, args = [a0, a1, a2, a3, a4, a5, a6] →
      L.parseFloat a4 = .error err →
      runCreateLineItem L args http
        = ⟨[.print (.text "Error: Invalid bid amount. Must be a number.")], .returned⟩ ∧
      posts (runCreateLineItem L args http).trace = [] ∧
      gets (runCreateLineItem L args http).trace = []) ∧
    (∀ a0 a1 a2 a3 a4 a5 a6 bid err, args = [a0, a1, a2, a3, a4, a5, a6] →
      L.parseFloat a4 = .ok bid → L.parseFloat a5 = .error err →
      runCreateLineItem L args http
        = ⟨[.print (.text "Error: Invalid budget amount. Must be a number.")], .returned⟩ ∧
      posts (runCreateLineItem L args http).trace = [] ∧
      gets (runCreateLineItem L args http).trace = []) ∧
    (∀ a0 a1 a2 a3 a4 a5 a6 bid budget, args = [a0, a1, a2, a3, a4, a5, a6] →
      L.parseFloat a4 = .ok bid → L.parseFloat a5 = .ok budget →
      posts (runCreateLineItem L args http).trace
        = [("http://localhost:8080/api/v1/lineitems",
            L.marshalLineItem ⟨a2, a3, bid, budget, a6, [], []⟩)]) := by
  refine ⟨?_, ?_, ?_, ?_⟩
  · intro hlen
    have hrun : runCreateLineItem L args http
        = ⟨.print (.text "Error: 'create' command requires 5 arguments.") :: printUsage,
            .returned⟩ := by
      unfold runCreateLineItem
      split
      · simp at hlen
      · rfl
    rw [hrun]
    exact ⟨rfl, rfl, rfl⟩
  · intro a0 a1 a2 a3 a4 a5 a6 err hargs hbid
    subst hargs
    simp [runCreateLineItem, hbid, posts, gets]
  · intro a0 a1 a2 a3 a4 a5 a6 bid err hargs hbid hbudget
    subst hargs
    simp [runCreateLineItem, hbid, hbudget, posts, gets]
  · intro a0 a1 a2 a3 a4 a5 a6 bid budget hargs hbid hbudget
    subst hargs
    cases http <;> simp [runCreateLineItem, hbid, hbudget, posts]

/-- The amended statement on an argument vector without positional arguments. -/
theorem create_argument_errors_witness :
    runCreateLineItem sampleLib ["main", "create"] (.ok ⟨201, ""⟩)
        = ⟨.print (.text "Error: 'create' command requires 5 arguments.") :: printUsage,
            .returned⟩ ∧
    posts (runCreateLineItem sampleLib ["main", "create"] (.ok ⟨201, ""⟩)).trace = [] ∧
    gets (runCreateLineItem sampleLib ["main", "create"] (.ok ⟨201, ""⟩)).trace = [] :=
  (create_argument_errors sampleLib ["main", "create"] (.ok ⟨201, ""⟩)).1 (by decide)

/-! ## C8: the fixture catalog -/

/-- C8. Fixture catalog: `getKnownLineItems` holds exactly twenty entries, every entry
satisfies the constraints of the data model (name of 1 to 100 characters, advertiser
id present, bid in [0.1, 10], budget in [1000, 10000], placement one of the three
allowed values), and each of the three placements occurs in some entry. -/
theorem catalog_valid :
    getKnownLineItems.length = 20 ∧
    (∀ item ∈ getKnownLineItems, item.Valid) ∧
    (∃ item ∈ getKnownLineItems, item.Placement = "homepage_top") ∧
    (∃ item ∈ getKnownLineItems, item.Placement = "video_preroll") ∧
    (∃ item ∈ getKnownLineItems, item.Placement = "article_inline_1") := by
  refine ⟨by simp [getKnownLineItems], ?_, ?_, ?_, ?_⟩
  · intro item hitem
    simp only [getKnownLineItems, List.mem_cons, List.mem_singleton, List.not_mem_nil,
      or_false] at hitem
    rcases hitem with h | h | h | h | h | h | h | h | h | h | h | h | h | h | h | h | h | h | h | h
      <;> subst h <;> unfold LineItemCreate.Valid <;>
      refine ⟨by decide, by decide, by decide, by norm_num, by norm_num, by norm_num,
        by norm_num, by decide⟩
  · exact ⟨_, List.mem_cons_self _ _, rfl⟩
  · exact ⟨_, List.mem_cons_of_mem _ (List.mem_cons_self _ _), rfl⟩
  · exact ⟨_, List.mem_cons_of_mem _ (List.mem_cons_of_mem _ (List.mem_cons_self _ _)), rfl⟩

/-! ## C10: the events of the injection loop -/

theorem userID_distinct :
    ∀ i : Fin 15, ∀ j : Fin 15, i ≠ j →
      "e2e-user-" ++ toString (i.val + 1) ≠ "e2e-user-" ++ toString (j.val + 1) := by
  decide

/-- C10. Event distinctness: once the subject `itemToTrack` is selected as the first
element of the decoded line-item sequence, the tracking POSTs of the run carry, in
order, the events of iterations `0, 1, ..., n - 1` for some `n ≤ 15`, with `n = 15`
when the loop runs to its end; the event of iteration `i` has user-id `e2e-user-`
followed by the decimal numeral of `i + 1`, event-type `impression`, the subject's id
and placement, and the metadata browser = safari, device = tablet; the user-ids of two
different iterations below 15 differ. -/
theorem injection_events_distinct (L : StdLib) (w : E2EWorld) (C : Nat) (body : String)
    (itemToTrack : LineItem) (others : List LineItem)
    (hopen : w.openInitial = none) (hinit : w.scanInitial = .ok C)
    (hget : w.getLineItems = .ok ⟨StatusOK, body⟩)
    (hitems : L.decodeLineItems body = .ok (itemToTrack :: others)) :
    (∃ n, n ≤ 15 ∧
      posts (runE2ETrackingTest L w).trace = (List.range n).map (fun i =>
        ("http://localhost:8080/api/v1/tracking", L.marshalEvent (mkEvent itemToTrack i))) ∧
      ((∀ i, i < 15 → accepted (w.postTracking i) = false) → n = 15)) ∧
    (∀ i, mkEvent itemToTrack i =
      { EventType := "impression", LineItemID := itemToTrack.ID, Timestamp := "",
        Placement := itemToTrack.toLineItemCreate.Placement,
        UserID := "e2e-user-" ++ toString (i + 1),
        Metadata := [("browser", "safari"), ("device", "tablet")] }) ∧
    (∀ i j, i < 15 → j < 15 → i ≠ j →
      (mkEvent itemToTrack i).UserID ≠ (mkEvent itemToTrack j).UserID) ∧
    (mkEvent itemToTrack 0).UserID = "e2e-user-1" ∧
    (mkEvent itemToTrack 14).UserID = "e2e-user-15" := by
  refine ⟨?_, fun i => rfl, ?_, rfl, rfl⟩
  · by_cases hall : ∀ i, i < 15 → accepted (w.postTracking i) = false
    · refine ⟨15, le_refl _, ?_, fun _ => rfl⟩
      cases hf1 : w.openFinal with
      | some err =>
        have hloop := injectionLoop_complete L w itemToTrack 15 16 0 (by omega) (by omega)
          (fun i _ hi => hall i hi)
        unfold runE2ETrackingTest
        simp only [hopen, hinit, hget, hitems, hf1]
        simp only [Nat.reduceAdd, ne_eq, not_true_eq_false, if_false, Nat.sub_zero] at hloop ⊢
        rw [hloop]
        simp only [posts_append, posts_injection, List.range_eq_range']
        simp [posts]
      | none =>
        cases hf2 : w.scanFinal with
        | error err =>
          have hloop := injectionLoop_complete L w itemToTrack 15 16 0 (by omega) (by omega)
            (fun i _ hi => hall i hi)
          unfold runE2ETrackingTest
          simp only [hopen, hinit, hget, hitems, hf1, hf2]
          simp only [Nat.reduceAdd, ne_eq, not_true_eq_false, if_false, Nat.sub_zero] at hloop ⊢
          rw [hloop]
          simp only [posts_append, posts_injection, List.range_eq_range']
          simp [posts]
        | ok F =>
          rw [e2e_run_complete L w C F body itemToTrack others hopen hinit hget hitems hall
            hf1 hf2]
          simp only [posts_append, posts_injection, List.range_eq_range']
          by_cases hv : (15 : Int) = toInt (subUint64 F C) <;> simp [posts, hv]
    · have hex : ∃ j, j < 15 ∧ accepted (w.postTracking j) = true := by
        by_contra hno
        apply hall
        intro i hi
        by_contra hacc
        exact hno ⟨i, hi, by simpa using hacc⟩
      have hj := Nat.find_spec hex
      have hmin : ∀ i, i < Nat.find hex → accepted (w.postTracking i) = false := by
        intro i hi
        have h := Nat.find_min hex hi
        by_contra hacc
        exact h ⟨by omega, by simpa using hacc⟩
      refine ⟨Nat.find hex + 1, by omega, ?_, fun h => absurd h hall⟩
      rw [e2e_run_crash L w C body itemToTrack others (Nat.find hex) hopen hinit hget hitems
        hj.1 hj.2 hmin]
      simp only [posts_append, posts_injection, List.range_eq_range']
      simp [posts, injectionSend, List.range'_concat]
  · intro i j hi hj hij
    exact userID_distinct ⟨i, hi⟩ ⟨j, hj⟩ (fun h => hij (by simpa using congrArg Fin.val h))

/-- The event theorem on the run with store counts 100 then 110 and every tracking
POST answered 500: fifteen POSTs, the events of iterations 0 to 14. -/
theorem injection_events_distinct_witness :
    (∃ n, n ≤ 15 ∧
      posts (runE2ETrackingTest sampleLib (sampleWorld 100 110 500)).trace
        = (List.range n).map (fun i =>
          ("http://localhost:8080/api/v1/tracking", sampleLib.marshalEvent (mkEvent sampleItem i))) ∧
      ((∀ i, i < 15 → accepted ((sampleWorld 100 110 500).postTracking i) = false) → n = 15)) ∧
    (∀ i j, i < 15 → j < 15 → i ≠ j →
      (mkEvent sampleItem i).UserID ≠ (mkEvent sampleItem j).UserID) :=
  ⟨(injection_events_distinct sampleLib (sampleWorld 100 110 500) 100 "[...]" sampleItem []
      rfl rfl rfl rfl).1,
   (injection_events_distinct sampleLib (sampleWorld 100 110 500) 100 "[...]" sampleItem []
      rfl rfl rfl rfl).2.2.1⟩

/-! ## C11: the verdict when the final count is below the initial count -/

/-- The verdict of the pipeline probe for arbitrary store counts, when the injection
loop runs to its end: PASS exactly when 15 equals the wrapped difference of the counts
converted to `int`. -/
theorem e2e_verdict_general (L : StdLib) (w : E2EWorld) (C F : Nat) (body : String)
    (itemToTrack : LineItem) (others : List LineItem)
    (hopen : w.openInitial = none) (hinit : w.scanInitial = .ok C)
    (hget : w.getLineItems = .ok ⟨StatusOK, body⟩)
    (hitems : L.decodeLineItems body = .ok (itemToTrack :: others))
    (hsend : ∀ i, i < 15 → accepted (w.postTracking i) = false)
    (hopen2 : w.openFinal = none) (hfinal : w.scanFinal = .ok F) :
    (runE2ETrackingTest L w).exit = .returned ∧
    ((runE2ETrackingTest L w).reportsPass = true ↔ (15 : Int) = toInt (subUint64 F C)) ∧
    ((runE2ETrackingTest L w).reportsFail = true ↔ ¬ (15 : Int) = toInt (subUint64 F C)) ∧
    ((15 : Int) = toInt (subUint64 F C) →
      Effect.print (.e2ePass 15 C F) ∈ (runE2ETrackingTest L w).trace) ∧
    (¬ (15 : Int) = toInt (subUint64 F C) →
      Effect.print (.e2eFail 15 (subUint64 F C) C F) ∈ (runE2ETrackingTest L w).trace) := by
  have hrun := e2e_run_complete L w C F body itemToTrack others hopen hinit hget hitems
    hsend hopen2 hfinal
  have hloop := injection_effects_not_verdict L itemToTrack 0 15
  rw [hrun, reportsPass_iff, reportsFail_iff]
  by_cases hv : (15 : Int) = toInt (subUint64 F C)
  · rw [if_pos hv]
    refine ⟨rfl, ?_, ?_, fun _ => by simp, fun h => absurd hv h⟩
    · simp only [hv, iff_true]
      exact ⟨15, C, F, by simp⟩
    · simp only [hv, not_true_eq_false, iff_false]
      rintro ⟨a, b, c, d, hmem⟩
      simp only [List.mem_append, List.mem_cons] at hmem
      rcases hmem with (hmem | hmem) | hmem
      · simp at hmem
      · exact (hloop _ hmem).2.1 a b c d rfl
      · simp at hmem
  · rw [if_neg hv]
    refine ⟨rfl, ?_, ?_, fun h => absurd h hv, fun _ => by simp⟩
    · simp only [hv, iff_false]
      rintro ⟨a, b, c, hmem⟩
      simp only [List.mem_append, List.mem_cons] at hmem
      rcases hmem with (hmem | hmem) | hmem
      · simp at hmem
      · exact (hloop _ hmem).1 a b c rfl
      · simp at hmem
    · simp only [hv, not_false_eq_true, iff_true]
      exact ⟨15, subUint64 F C, C, F, by simp⟩

/-- Wrapping subtraction of a larger count from a smaller one. -/
theorem subUint64_shrink (C F : Nat) (hC : C < 2 ^ 64) (hlt : F < C) :
    subUint64 F C = F + 2 ^ 64 - C := by
  unfold subUint64
  rw [Nat.mod_eq_of_lt hC]
  exact Nat.mod_eq_of_lt (by omega)

/-- C11 (the claim fails at the top of the 64-bit range). With the initial count
`2 ^ 64 - 1` and the final count `14`, the final count is below the initial count,
the wrapped 64-bit difference is 15, its conversion to `int` is 15, and the pipeline
probe prints the PASS verdict and no FAIL verdict. -/
theorem e2e_shrinking_table_false_pass :
    (14 : Nat) < 2 ^ 64 - 1 ∧ (2 ^ 64 - 1 : Nat) < 2 ^ 64 ∧
    subUint64 14 (2 ^ 64 - 1) = 15 ∧ toInt (subUint64 14 (2 ^ 64 - 1)) = 15 ∧
    (runE2ETrackingTest sampleLib (sampleWorld (2 ^ 64 - 1) 14 500)).reportsPass = true ∧
    (runE2ETrackingTest sampleLib (sampleWorld (2 ^ 64 - 1) 14 500)).reportsFail = false ∧
    Effect.print (.e2ePass 15 (2 ^ 64 - 1) 14)
      ∈ (runE2ETrackingTest sampleLib (sampleWorld (2 ^ 64 - 1) 14 500)).trace := by
  have hsub : subUint64 14 (2 ^ 64 - 1) = 15 := by
    rw [subUint64_shrink _ _ (by norm_num) (by norm_num)]
    norm_num
  have hint : toInt (subUint64 14 (2 ^ 64 - 1)) = 15 := by
    rw [hsub]
    exact ((toInt_eq_fifteen 15 (by norm_num)).mpr rfl).symm
  have h := e2e_verdict_general sampleLib (sampleWorld (2 ^ 64 - 1) 14 500) (2 ^ 64 - 1) 14
    "[...]" sampleItem [] rfl rfl rfl rfl (fun _ _ => rfl) rfl rfl
  refine ⟨by norm_num, by norm_num, hsub, hint, h.2.1.mpr hint.symm, ?_, h.2.2.2.1 hint.symm⟩
  cases hf : (runE2ETrackingTest sampleLib (sampleWorld (2 ^ 64 - 1) 14 500)).reportsFail with
  | false => rfl
  | true => exact absurd hint.symm (h.2.2.1.mp hf)

/-- C11 (amended). When the final count `F` is below the initial count `C` (both
64-bit) and the injection loop runs to its end, the pipeline probe returns with a
verdict computed from the wrapped difference `F + 2 ^ 64 - C`: it prints FAIL, and
not PASS, unless `C - F = 2 ^ 64 - 15`, the one drop whose wrapped difference is 15,
where it prints PASS; in particular the verdict is FAIL whenever the initial count is
below `2 ^ 64 - 15`. -/
theorem e2e_shrinking_table_verdict (L : StdLib) (w : E2EWorld) (C F : Nat) (body : String)
    (itemToTrack : LineItem) (others : List LineItem)
    (hC : C < 2 ^ 64) (hlt : F < C)
    (hopen : w.openInitial = none) (hinit : w.scanInitial = .ok C)
    (hget : w.getLineItems = .ok ⟨StatusOK, body⟩)
    (hitems : L.decodeLineItems body = .ok (itemToTrack :: others))
    (hsend : ∀ i, i < 15 → accepted (w.postTracking i) = false)
    (hopen2 : w.openFinal = none) (hfinal : w.scanFinal = .ok F) :
    (runE2ETrackingTest L w).exit = .returned ∧
    ((runE2ETrackingTest L w).reportsPass = true ↔ C - F = 2 ^ 64 - 15) ∧
    ((runE2ETrackingTest L w).reportsFail = true ↔ C - F ≠ 2 ^ 64 - 15) ∧
    (C - F ≠ 2 ^ 64 - 15 →
      Effect.print (.e2eFail 15 (F + 2 ^ 64 - C) C F) ∈ (runE2ETrackingTest L w).trace) ∧
    (C < 2 ^ 64 - 15 →
      (runE2ETrackingTest L w).reportsFail = true ∧
      (runE2ETrackingTest L w).reportsPass = false) := by
  have h := e2e_verdict_general L w C F body itemToTrack others hopen hinit hget hitems hsend
    hopen2 hfinal
  have hsub := subUint64_shrink C F hC hlt
  have hK : (15 : Int) = toInt (F + 2 ^ 64 - C) ↔ C - F = 2 ^ 64 - 15 := by
    rw [toInt_eq_fifteen (F + 2 ^ 64 - C) (by omega)]
    omega
  rw [hsub] at h
  have hpass : (runE2ETrackingTest L w).reportsPass = true ↔ C - F = 2 ^ 64 - 15 :=
    h.2.1.trans hK
  have hfail : (runE2ETrackingTest L w).reportsFail = true ↔ C - F ≠ 2 ^ 64 - 15 :=
    h.2.2.1.trans (not_congr hK)
  refine ⟨h.1, hpass, hfail, fun hne => h.2.2.2.2 (fun hv => hne (hK.mp hv)), ?_⟩
  intro hsmall
  have hne : C - F ≠ 2 ^ 64 - 15 := by omega
  refine ⟨hfail.mpr hne, ?_⟩
  cases hp : (runE2ETrackingTest L w).reportsPass with
  | false => rfl
  | true => exact absurd (hpass.mp hp) hne

/-- The amended statement at the store counts 100 then 90 with every tracking POST
answered 500: the probe reports FAIL with the wrapped difference. -/
theorem e2e_shrinking_table_verdict_witness :
    (100 : Nat) < 2 ^ 64 ∧ (90 : Nat) < 100 ∧
    (runE2ETrackingTest sampleLib (sampleWorld 100 90 500)).reportsFail = true ∧
    (runE2ETrackingTest sampleLib (sampleWorld 100 90 500)).reportsPass = false ∧
    Effect.print (.e2eFail 15 (90 + 2 ^ 64 - 100) 100 90)
      ∈ (runE2ETrackingTest sampleLib (sampleWorld 100 90 500)).trace :=
  ⟨by norm_num, by norm_num,
   ((e2e_shrinking_table_verdict sampleLib (sampleWorld 100 90 500) 100 90 "[...]" sampleItem []
      (by norm_num) (by norm_num) rfl rfl rfl rfl (fun _ _ => rfl) rfl rfl).2.2.2.2
      (by norm_num)).1,
   ((e2e_shrinking_table_verdict sampleLib (sampleWorld 100 90 500) 100 90 "[...]" sampleItem []
      (by norm_num) (by norm_num) rfl rfl rfl rfl (fun _ _ => rfl) rfl rfl).2.2.2.2
      (by norm_num)).2,
   (e2e_shrinking_table_verdict sampleLib (sampleWorld 100 90 500) 100 90 "[...]" sampleItem []
      (by norm_num) (by norm_num) rfl rfl rfl rfl (fun _ _ => rfl) rfl rfl).2.2.2.1
      (by norm_num)⟩

end AdHarness
